import Mathlib

/-!
# TheKit — verification of the time/position synchronization core

Shallow embedding of the NMEA-0183 parser (`gps_util.c`, both revisions
found in the repository), the RTC-based NTP discipline engine
(`ntp_client.c`, `irq.c`), the shared NTP state (`ntp_common.c`), the
SNTP server callback (`ntp_server.c`) and the fractional-second codec.

Machine integers are modelled as `Nat`/`Int` with explicit `% 2^w`
where the C code can overflow; `float` field values are modelled as `ℚ`
(exact arithmetic; the committed boolean/integer outputs do not depend
on rounding). Fallible C paths return `Option`/`Bool`. Loops are
written with an explicit fuel argument so that every definition reduces
in the kernel; each call site passes a fuel that the loop can never
exhaust (every iteration requires `cursor < buffer_len`).
-/

namespace TheKit

/-! ## Byte-level primitives shared by both parser revisions

The sentence buffer is a list of bytes. `readB` models `buffer[i]`:
inside `gpsutil_feed` the byte at index `buffer_pos` is the NUL
terminator that `gpsutil_feed` writes before parsing, and `List.getD`
returns `0` there. Reads are masked to 8 bits exactly as the C `char`/
`uint8_t` accesses are. -/

def readB (buf : List Nat) (i : Nat) : Nat := (buf.getD i 0) % 256

/-- `isdigit` on a byte. -/
def isDigitB (b : Nat) : Bool := 48 ≤ b && b ≤ 57

/-- The lookup table `HEX[] = "0123456789ABCDEF"` as a function on `0..15`. -/
def hexDigit (n : Nat) : Nat := if n < 10 then 48 + n else 55 + n

/-- XOR of the first `n` stored bytes of the buffer: the running NMEA
checksum over `buffer[0..n)` (the `'$'` is never stored). -/
def xorPrefix (buf : List Nat) (n : Nat) : Nat :=
  ((buf.take n).map (fun b => b % 256)).foldl (fun a b => a ^^^ b) 0

theorem xorPrefix_zero (buf : List Nat) : xorPrefix buf 0 = 0 := rfl

theorem xorPrefix_succ (buf : List Nat) (n : Nat) :
    xorPrefix buf (n + 1) = xorPrefix buf n ^^^ readB buf n := by
  unfold xorPrefix readB
  rcases Nat.lt_or_ge n buf.length with h | h
  · rw [List.take_succ, List.map_append, List.foldl_append]
    rw [List.getD_eq_getElem buf 0 h, List.getElem?_eq_getElem h]
    rfl
  · rw [List.take_of_length_le (Nat.le_trans h (Nat.le_succ n)),
      List.take_of_length_le h, List.getD_eq_default buf 0 h]
    simp

/-- Truncation to `uint32`. -/
def u32 (n : Nat) : Nat := n % 4294967296

/-! ## NMEA parser, first revision of `gps_util.c`
(`thekit4_pico_w.c` lines 134–1254: `parse_integer`,
`parse_float_decimal`, `parse_float`, `parse_single_char`, `parse_hms`,
`parse_dm`, `check_checksum`, `consume_until_checksum`, `COMMA_OR_FAIL`,
the four sentence parsers, `parse_sentence`, `gpsutil_feed`).

Each field helper threads the running checksum and the in-buffer
cursor; `Pst` is that threaded pair. -/

namespace GpsV1

/-- Threaded parser state: running checksum and cursor. -/
structure Pst where
  cs : Nat
  cur : Nat
deriving DecidableEq

/-- `NEGPOW_10` lookup table, `{1, 1e-1, ..., 1e-7}`, as exact rationals.
The C array has 8 entries; `parse_float_decimal` can index it with
`digits = 8` (eight fractional digits), one past the end — an
out-of-bounds read.  We model the mathematically continued value
`10^-8`; no committed boolean/integer output depends on it. -/
def NEGPOW_10 (d : Nat) : ℚ := (1 / 10) ^ d

/-- Digit loop of `parse_integer`:
`while (isdigit(c = *buffer) && buffer < end)`.  The explicit fuel is
never exhausted at the call site (`fuel = len + 1` and every iteration
requires `cur < len`). -/
def parseIntLoop (buf : List Nat) (len : Nat) : Nat → Nat → Pst → Nat × Pst
  | 0, value, s => (value, s)
  | fuel + 1, value, s =>
    let c := readB buf s.cur
    if isDigitB c ∧ s.cur < len then
      parseIntLoop buf len fuel (u32 (value * 10 + (c - 48))) ⟨s.cs ^^^ c, s.cur + 1⟩
    else (value, s)

/-- `parse_integer`: greedy digits, empty match yields zero. -/
def parse_integer (buf : List Nat) (len : Nat) (s : Pst) : Nat × Pst :=
  parseIntLoop buf len (len + 1) 0 s

/-- Digit loop of `parse_float_decimal`, which additionally stops after
`NEGPOW_10_LEN = 8` digits.  Returns `(value, digits, state)`. -/
def parseFracLoop (buf : List Nat) (len : Nat) : Nat → Nat → Nat → Pst → Nat × Nat × Pst
  | 0, value, digits, s => (value, digits, s)
  | fuel + 1, value, digits, s =>
    let c := readB buf s.cur
    if isDigitB c ∧ s.cur < len ∧ digits < 8 then
      parseFracLoop buf len fuel (u32 (value * 10 + (c - 48))) (digits + 1)
        ⟨s.cs ^^^ c, s.cur + 1⟩
    else (value, digits, s)

/-- `parse_float_decimal`: a `'.'` followed by greedy digits; anything
else leaves the state untouched and yields `0.0`. -/
def parse_float_decimal (buf : List Nat) (len : Nat) (s : Pst) : ℚ × Pst :=
  if len ≤ s.cur ∨ readB buf s.cur ≠ 46 then (0, s)
  else
    let r := parseFracLoop buf len (len + 1) 0 0 ⟨s.cs ^^^ 46, s.cur + 1⟩
    (r.1 * NEGPOW_10 r.2.1, r.2.2)

/-- `parse_float`: optional `'-'`, integer part, optional decimal part.
(`buffer_len - *cursor >= 1` is computed in `int` arithmetic after
integer promotion of the `uint8_t` operands, hence it is `cur < len`.) -/
def parse_float (buf : List Nat) (len : Nat) (s : Pst) : ℚ × Pst :=
  if s.cur < len then
    let neg : Bool := readB buf s.cur = 45
    let s1 : Pst := if readB buf s.cur = 45 then ⟨s.cs ^^^ 45, s.cur + 1⟩ else s
    let r2 := parse_integer buf len s1
    let r3 := parse_float_decimal buf len r2.2
    (if neg then -((r2.1 : ℚ) + r3.1) else ((r2.1 : ℚ) + r3.1), r3.2)
  else (0, s)

/-- `parse_single_char`: consume one character, or report `EOF`
(modelled as `none`) without consuming when the next byte is `','` or
`'*'` or the buffer is exhausted. -/
def parse_single_char (buf : List Nat) (len : Nat) (s : Pst) : Option Nat × Pst :=
  if len ≤ s.cur then (none, s)
  else
    let c := readB buf s.cur
    if c = 44 ∨ c = 42 then (none, s)
    else (some c, ⟨s.cs ^^^ c, s.cur + 1⟩)

/-- `parse_hms`: `hhmmss(.sss)`; hour is truncated to `uint8` by the
assignment `*hour = hms / 100`. Returns `((hour, min, sec), state)`. -/
def parse_hms (buf : List Nat) (len : Nat) (s : Pst) : (Nat × Nat × ℚ) × Pst :=
  let r1 := parse_integer buf len s
  let r2 := parse_float_decimal buf len r1.2
  let secInt := r1.1 % 100
  let hms1 := r1.1 / 100
  ((hms1 / 100 % 256, hms1 % 100, (secInt : ℚ) + r2.1), r2.2)

/-- `parse_dm`: `dddmm(.mmmm)`; degrees are truncated to `uint16` by the
assignment `*deg = dms / 100`. Returns `((deg, minutes), state)`. -/
def parse_dm (buf : List Nat) (len : Nat) (s : Pst) : (Nat × ℚ) × Pst :=
  let r1 := parse_integer buf len s
  let r2 := parse_float_decimal buf len r1.2
  let minInt := r1.1 % 100
  ((r1.1 / 100 % 65536, (minInt : ℚ) + r2.1), r2.2)

/-- `check_checksum`: expects `'*'` then exactly two uppercase hex
digits of the accumulated checksum. -/
def check_checksum (buf : List Nat) (len : Nat) (cs cur : Nat) : Bool :=
  if len < cur + 3 then false
  else if readB buf cur ≠ 42 then false
  else
    decide (readB buf (cur + 1) = hexDigit (cs / 16) ∧
            readB buf (cur + 2) = hexDigit (cs % 16))

/-- Loop of `consume_until_checksum`: XOR everything up to (excluding)
the `'*'` into the checksum. -/
def consumeUntil (buf : List Nat) (len : Nat) : Nat → Pst → Pst
  | 0, s => s
  | fuel + 1, s =>
    if s.cur < len then
      let c := readB buf s.cur
      if c = 42 then s
      else consumeUntil buf len fuel ⟨s.cs ^^^ c, s.cur + 1⟩
    else s

def consume_until_checksum (buf : List Nat) (len : Nat) (s : Pst) : Pst :=
  consumeUntil buf len (len + 1) s

/-- `COMMA_OR_FAIL`: the next byte must be `','`; it is XORed into the
checksum on success, and the sentence parser returns `false` otherwise. -/
def commaOrFail (buf : List Nat) (s : Pst) : Option Pst :=
  if readB buf s.cur = 44 then some ⟨s.cs ^^^ 44, s.cur + 1⟩ else none

/-- The `[NS]` hemisphere branch shared by GGA/GLL/RMC: `'S'` negates,
`'N'` and an empty field are no-ops, anything else fails. -/
def dirNS (next : Option Nat) (v : ℚ) : Option ℚ :=
  match next with
  | none => some v
  | some c => if c = 83 then some (-v) else if c = 78 then some v else none

/-- The `[EW]` branch: `'W'` negates, `'E'` and empty are no-ops. -/
def dirEW (next : Option Nat) (v : ℚ) : Option ℚ :=
  match next with
  | none => some v
  | some c => if c = 87 then some (-v) else if c = 69 then some v else none

/-- The `[AV]` validity branch: `'A'` valid, `'V'` and empty invalid. -/
def dirAV (next : Option Nat) : Option Bool :=
  match next with
  | none => some false
  | some c => if c = 65 then some true else if c = 86 then some false else none

/-- The `'M'` unit branch of GGA: `'M'` and empty are accepted. -/
def unitM (next : Option Nat) : Option Unit :=
  match next with
  | none => some ()
  | some c => if c = 77 then some () else none

structure GgaOut where
  hour : Nat
  minute : Nat
  sec : ℚ
  lat : ℚ
  lon : ℚ
  fixQuality : Nat
  numSatellites : Nat
  hdop : ℚ
  altitude : ℚ
  geoidSep : ℚ
deriving DecidableEq

/-- `gpsutil_parse_sentence_gga`.  The returned `Pst` is the final
checksum/cursor pair at which the trailing `*hh` was verified.
`fix_quality` and `num_satellites` are truncated to `uint8` by their
assignments. -/
def gpsutil_parse_sentence_gga (buf : List Nat) (len : Nat) (s0 : Pst) :
    Option (GgaOut × Pst) :=
  let a := parse_hms buf len s0
  (commaOrFail buf a.2).bind fun s1 =>
  let b := parse_dm buf len s1
  (commaOrFail buf b.2).bind fun s2 =>
  let c := parse_single_char buf len s2
  (dirNS c.1 ((b.1.1 : ℚ) + b.1.2 / 60)).bind fun lat =>
  (commaOrFail buf c.2).bind fun s3 =>
  let d := parse_dm buf len s3
  (commaOrFail buf d.2).bind fun s4 =>
  let e := parse_single_char buf len s4
  (dirEW e.1 ((d.1.1 : ℚ) + d.1.2 / 60)).bind fun lon =>
  (commaOrFail buf e.2).bind fun s5 =>
  let f := parse_integer buf len s5
  (commaOrFail buf f.2).bind fun s6 =>
  let n := parse_integer buf len s6
  (commaOrFail buf n.2).bind fun s7 =>
  let hd := parse_float buf len s7
  (commaOrFail buf hd.2).bind fun s8 =>
  let al := parse_float buf len s8
  (commaOrFail buf al.2).bind fun s9 =>
  let m := parse_single_char buf len s9
  (unitM m.1).bind fun _ =>
  (commaOrFail buf m.2).bind fun s10 =>
  let gsep := parse_float buf len s10
  let s11 := consume_until_checksum buf len gsep.2
  if check_checksum buf len s11.cs s11.cur then
    some ({ hour := a.1.1, minute := a.1.2.1, sec := a.1.2.2,
            lat := lat, lon := lon,
            fixQuality := f.1 % 256, numSatellites := n.1 % 256,
            hdop := hd.1, altitude := al.1, geoidSep := gsep.1 }, s11)
  else none

structure GllOut where
  hour : Nat
  minute : Nat
  sec : ℚ
  lat : ℚ
  lon : ℚ
  valid : Bool
deriving DecidableEq

/-- `gpsutil_parse_sentence_gll`. -/
def gpsutil_parse_sentence_gll (buf : List Nat) (len : Nat) (s0 : Pst) :
    Option (GllOut × Pst) :=
  let b := parse_dm buf len s0
  (commaOrFail buf b.2).bind fun s1 =>
  let c := parse_single_char buf len s1
  (dirNS c.1 ((b.1.1 : ℚ) + b.1.2 / 60)).bind fun lat =>
  (commaOrFail buf c.2).bind fun s2 =>
  let d := parse_dm buf len s2
  (commaOrFail buf d.2).bind fun s3 =>
  let e := parse_single_char buf len s3
  (dirEW e.1 ((d.1.1 : ℚ) + d.1.2 / 60)).bind fun lon =>
  (commaOrFail buf e.2).bind fun s4 =>
  let a := parse_hms buf len s4
  (commaOrFail buf a.2).bind fun s5 =>
  let v := parse_single_char buf len s5
  (dirAV v.1).bind fun valid =>
  let s6 := consume_until_checksum buf len v.2
  if check_checksum buf len s6.cs s6.cur then
    some ({ hour := a.1.1, minute := a.1.2.1, sec := a.1.2.2,
            lat := lat, lon := lon, valid := valid }, s6)
  else none

structure RmcOut where
  hour : Nat
  minute : Nat
  sec : ℚ
  lat : ℚ
  lon : ℚ
  valid : Bool
deriving DecidableEq

/-- `gpsutil_parse_sentence_rmc`. -/
def gpsutil_parse_sentence_rmc (buf : List Nat) (len : Nat) (s0 : Pst) :
    Option (RmcOut × Pst) :=
  let a := parse_hms buf len s0
  (commaOrFail buf a.2).bind fun s1 =>
  let v := parse_single_char buf len s1
  (dirAV v.1).bind fun valid =>
  (commaOrFail buf v.2).bind fun s2 =>
  let b := parse_dm buf len s2
  (commaOrFail buf b.2).bind fun s3 =>
  let c := parse_single_char buf len s3
  (dirNS c.1 ((b.1.1 : ℚ) + b.1.2 / 60)).bind fun lat =>
  (commaOrFail buf c.2).bind fun s4 =>
  let d := parse_dm buf len s4
  (commaOrFail buf d.2).bind fun s5 =>
  let e := parse_single_char buf len s5
  (dirEW e.1 ((d.1.1 : ℚ) + d.1.2 / 60)).bind fun lon =>
  let s6 := consume_until_checksum buf len e.2
  if check_checksum buf len s6.cs s6.cur then
    some ({ hour := a.1.1, minute := a.1.2.1, sec := a.1.2.2,
            lat := lat, lon := lon, valid := valid }, s6)
  else none

structure ZdaOut where
  hour : Nat
  minute : Nat
  sec : ℚ
  year : Nat
  month : Nat
  day : Nat
  zoneHour : Nat
  zoneMin : Nat
deriving DecidableEq

/-- `gpsutil_parse_sentence_zda`; year is truncated to `uint16`,
day/month/zone fields to `uint8`, by their assignments. -/
def gpsutil_parse_sentence_zda (buf : List Nat) (len : Nat) (s0 : Pst) :
    Option (ZdaOut × Pst) :=
  let a := parse_hms buf len s0
  (commaOrFail buf a.2).bind fun s1 =>
  let dd := parse_integer buf len s1
  (commaOrFail buf dd.2).bind fun s2 =>
  let mm := parse_integer buf len s2
  (commaOrFail buf mm.2).bind fun s3 =>
  let yy := parse_integer buf len s3
  (commaOrFail buf yy.2).bind fun s4 =>
  let zh := parse_integer buf len s4
  (commaOrFail buf zh.2).bind fun s5 =>
  let zm := parse_integer buf len s5
  if check_checksum buf len zm.2.cs zm.2.cur then
    some ({ hour := a.1.1, minute := a.1.2.1, sec := a.1.2.2,
            year := yy.1 % 65536, month := mm.1 % 256, day := dd.1 % 256,
            zoneHour := zh.1 % 256, zoneMin := zm.1 % 256 }, zm.2)
  else none

/-- `gpsutil_parse_sentence_unused`: consume the remainder and validate
the trailing checksum. -/
def gpsutil_parse_sentence_unused (buf : List Nat) (len : Nat) (s : Pst) : Bool :=
  let s1 := consume_until_checksum buf len s
  check_checksum buf len s1.cs s1.cur

/-- The parser's output register (`struct gps_status`, scratch buffer
included; the 2023 revision has no per-field timestamps). -/
structure GpsStatus where
  gpsValid : Bool
  gpsTimeValid : Bool
  gpsLat : ℚ
  gpsLon : ℚ
  gpsAlt : ℚ
  gpsSatNum : Nat
  utcHour : Nat
  utcMin : Nat
  utcSec : ℚ
  utcYear : Nat
  utcMonth : Nat
  utcDay : Nat
  buffer : List Nat
  inSentence : Bool
deriving DecidableEq

/-- `GPS_STATUS_INIT`. -/
def GPS_STATUS_INIT : GpsStatus :=
  { gpsValid := false, gpsTimeValid := false, gpsLat := 0, gpsLon := 0,
    gpsAlt := 0, gpsSatNum := 0, utcHour := 0, utcMin := 0, utcSec := 0,
    utcYear := 0, utcMonth := 0, utcDay := 0, buffer := [], inSentence := false }

/-- `determine_time_validity`: `gps_time_valid := utc_year > 1000`. -/
def determine_time_validity (g : GpsStatus) : GpsStatus :=
  { g with gpsTimeValid := decide (1000 < g.utcYear) }

/-- `parse_sentence`: checksum the five-byte talker/type prefix,
dispatch on the type, and commit the parsed fields only on success.
The C computes a numeric `type` code, runs `COMMA_OR_FAIL` once and
then switches on the code; the embedding inlines that single comma
step into each recognized branch, which is observably identical. -/
def parse_sentence (g : GpsStatus) : Bool × GpsStatus :=
  let buf := g.buffer
  let len := buf.length
  if len < 6 then (false, g)
  else
    let t0 := readB buf 2
    let t1 := readB buf 3
    let t2 := readB buf 4
    let s5 : Pst :=
      ⟨((((0 ^^^ readB buf 0) ^^^ readB buf 1) ^^^ t0) ^^^ t1) ^^^ t2, 5⟩
    if t0 = 71 ∧ t1 = 71 ∧ t2 = 65 then        -- "GGA"
      match commaOrFail buf s5 with
      | none => (false, g)
      | some s6 =>
        match gpsutil_parse_sentence_gga buf len s6 with
        | none => (false, g)
        | some (f, _) =>
          (true, determine_time_validity { g with
            gpsLat := f.lat, gpsLon := f.lon,
            gpsValid := decide (0 < f.fixQuality),
            gpsAlt := f.altitude, gpsSatNum := f.numSatellites,
            utcHour := f.hour, utcMin := f.minute, utcSec := f.sec })
    else if t0 = 71 ∧ t1 = 76 ∧ t2 = 76 then   -- "GLL"
      match commaOrFail buf s5 with
      | none => (false, g)
      | some s6 =>
        match gpsutil_parse_sentence_gll buf len s6 with
        | none => (false, g)
        | some (f, _) =>
          (true, determine_time_validity { g with
            gpsLat := f.lat, gpsLon := f.lon, gpsValid := f.valid,
            utcHour := f.hour, utcMin := f.minute, utcSec := f.sec })
    else if t0 = 82 ∧ t1 = 77 ∧ t2 = 67 then   -- "RMC"
      match commaOrFail buf s5 with
      | none => (false, g)
      | some s6 =>
        match gpsutil_parse_sentence_rmc buf len s6 with
        | none => (false, g)
        | some (f, _) =>
          (true, determine_time_validity { g with
            gpsValid := f.valid, gpsLat := f.lat, gpsLon := f.lon,
            utcHour := f.hour, utcMin := f.minute, utcSec := f.sec })
    else if t0 = 90 ∧ t1 = 68 ∧ t2 = 65 then   -- "ZDA"
      match commaOrFail buf s5 with
      | none => (false, g)
      | some s6 =>
        match gpsutil_parse_sentence_zda buf len s6 with
        | none => (false, g)
        | some (f, _) =>
          (true, determine_time_validity { g with
            utcHour := f.hour, utcMin := f.minute, utcSec := f.sec,
            utcYear := f.year, utcMonth := f.month, utcDay := f.day })
    else (gpsutil_parse_sentence_unused buf len s5, g)

/-- `gpsutil_feed`: the framing state machine.  The stored byte is the
`int`-to-`char` conversion `c % 256`; `sizeof(buffer) - 1 = 127`. -/
def gpsutil_feed (g : GpsStatus) (c : Nat) : Bool × GpsStatus :=
  if c = 36 then (false, { g with inSentence := true, buffer := [] })
  else if g.inSentence = false then (false, g)
  else if c = 13 ∨ c = 10 then
    let g1 := { g with inSentence := false }
    if 0 < g1.buffer.length then parse_sentence g1 else (false, g1)
  else if g.buffer.length < 127 then (false, { g with buffer := g.buffer ++ [c % 256] })
  else (false, { g with inSentence := false })

/-- Feeding a whole byte sequence (`gps_parse_available` drains the
UART byte by byte). -/
def feedList (g : GpsStatus) (l : List Nat) : GpsStatus :=
  l.foldl (fun g c => (gpsutil_feed g c).2) g

/-! ### Checksum-threading invariant

Every byte a field helper consumes is XORed into the running checksum,
so the threaded checksum always equals the XOR of the consumed prefix
of the buffer. -/

/-- The running checksum equals the XOR of the consumed prefix. -/
def Inv (buf : List Nat) (s : Pst) : Prop := s.cs = xorPrefix buf s.cur

theorem step_inv {buf : List Nat} {s : Pst} (h : Inv buf s) {c : Nat}
    (hc : c = readB buf s.cur) : Inv buf ⟨s.cs ^^^ c, s.cur + 1⟩ := by
  show s.cs ^^^ c = xorPrefix buf (s.cur + 1)
  rw [xorPrefix_succ, ← h, hc]

theorem parseIntLoop_inv (buf : List Nat) (len fuel : Nat) :
    ∀ (v : Nat) (s : Pst), Inv buf s → Inv buf (parseIntLoop buf len fuel v s).2 := by
  induction fuel with
  | zero => intro v s h; exact h
  | succ n ih =>
    intro v s h
    simp only [parseIntLoop]
    split
    · exact ih _ _ (step_inv h rfl)
    · exact h

theorem parse_integer_inv (buf : List Nat) (len : Nat) (s : Pst) (h : Inv buf s) :
    Inv buf (parse_integer buf len s).2 :=
  parseIntLoop_inv buf len (len + 1) 0 s h

theorem parseFracLoop_inv (buf : List Nat) (len fuel : Nat) :
    ∀ (v d : Nat) (s : Pst), Inv buf s → Inv buf (parseFracLoop buf len fuel v d s).2.2 := by
  induction fuel with
  | zero => intro v d s h; exact h
  | succ n ih =>
    intro v d s h
    simp only [parseFracLoop]
    split
    · exact ih _ _ _ (step_inv h rfl)
    · exact h

theorem parse_float_decimal_inv (buf : List Nat) (len : Nat) (s : Pst) (h : Inv buf s) :
    Inv buf (parse_float_decimal buf len s).2 := by
  unfold parse_float_decimal
  split
  · exact h
  · next hcond =>
    push_neg at hcond
    exact parseFracLoop_inv buf len (len + 1) 0 0 _ (step_inv h hcond.2.symm)

theorem parse_float_inv (buf : List Nat) (len : Nat) (s : Pst) (h : Inv buf s) :
    Inv buf (parse_float buf len s).2 := by
  unfold parse_float
  split
  · refine parse_float_decimal_inv buf len _ (parse_integer_inv buf len _ ?_)
    dsimp only
    split
    · next hminus => exact step_inv h hminus.symm
    · exact h
  · exact h

theorem parse_single_char_inv (buf : List Nat) (len : Nat) (s : Pst) (h : Inv buf s) :
    Inv buf (parse_single_char buf len s).2 := by
  unfold parse_single_char
  split
  · exact h
  · dsimp only
    split
    · exact h
    · exact step_inv h rfl

theorem parse_hms_inv (buf : List Nat) (len : Nat) (s : Pst) (h : Inv buf s) :
    Inv buf (parse_hms buf len s).2 :=
  parse_float_decimal_inv buf len _ (parse_integer_inv buf len s h)

theorem parse_dm_inv (buf : List Nat) (len : Nat) (s : Pst) (h : Inv buf s) :
    Inv buf (parse_dm buf len s).2 :=
  parse_float_decimal_inv buf len _ (parse_integer_inv buf len s h)

theorem consumeUntil_inv (buf : List Nat) (len fuel : Nat) :
    ∀ (s : Pst), Inv buf s → Inv buf (consumeUntil buf len fuel s) := by
  induction fuel with
  | zero => intro s h; exact h
  | succ n ih =>
    intro s h
    simp only [consumeUntil]
    split
    · split
      · exact h
      · exact ih _ (step_inv h rfl)
    · exact h

theorem consume_until_checksum_inv (buf : List Nat) (len : Nat) (s : Pst) (h : Inv buf s) :
    Inv buf (consume_until_checksum buf len s) :=
  consumeUntil_inv buf len (len + 1) s h

theorem commaOrFail_inv {buf : List Nat} {s s' : Pst}
    (heq : commaOrFail buf s = some s') (h : Inv buf s) : Inv buf s' := by
  unfold commaOrFail at heq
  split at heq
  · next hc =>
    cases heq
    exact step_inv h hc.symm
  · cases heq

/-- Success of the GGA parser implies that the final checksum is the
XOR of the whole consumed prefix and that the `*hh` trailer check
passed there. -/
theorem gga_inv {buf : List Nat} {len : Nat} {s0 : Pst} {out : GgaOut} {s' : Pst}
    (h : gpsutil_parse_sentence_gga buf len s0 = some (out, s'))
    (h0 : Inv buf s0) :
    Inv buf s' ∧ check_checksum buf len s'.cs s'.cur = true := by
  unfold gpsutil_parse_sentence_gga at h
  obtain ⟨s1, hs1, h⟩ := Option.bind_eq_some.mp h
  obtain ⟨s2, hs2, h⟩ := Option.bind_eq_some.mp h
  obtain ⟨lat, _, h⟩ := Option.bind_eq_some.mp h
  obtain ⟨s3, hs3, h⟩ := Option.bind_eq_some.mp h
  obtain ⟨s4, hs4, h⟩ := Option.bind_eq_some.mp h
  obtain ⟨lon, _, h⟩ := Option.bind_eq_some.mp h
  obtain ⟨s5, hs5, h⟩ := Option.bind_eq_some.mp h
  obtain ⟨s6, hs6, h⟩ := Option.bind_eq_some.mp h
  obtain ⟨s7, hs7, h⟩ := Option.bind_eq_some.mp h
  obtain ⟨s8, hs8, h⟩ := Option.bind_eq_some.mp h
  obtain ⟨s9, hs9, h⟩ := Option.bind_eq_some.mp h
  obtain ⟨u, _, h⟩ := Option.bind_eq_some.mp h
  obtain ⟨s10, hs10, h⟩ := Option.bind_eq_some.mp h
  dsimp only at h
  have i1 := commaOrFail_inv hs1 (parse_hms_inv buf len s0 h0)
  have i2 := commaOrFail_inv hs2 (parse_dm_inv buf len s1 i1)
  have i3 := commaOrFail_inv hs3 (parse_single_char_inv buf len s2 i2)
  have i4 := commaOrFail_inv hs4 (parse_dm_inv buf len s3 i3)
  have i5 := commaOrFail_inv hs5 (parse_single_char_inv buf len s4 i4)
  have i6 := commaOrFail_inv hs6 (parse_integer_inv buf len s5 i5)
  have i7 := commaOrFail_inv hs7 (parse_integer_inv buf len s6 i6)
  have i8 := commaOrFail_inv hs8 (parse_float_inv buf len s7 i7)
  have i9 := commaOrFail_inv hs9 (parse_float_inv buf len s8 i8)
  have i10 := commaOrFail_inv hs10 (parse_single_char_inv buf len s9 i9)
  have i11 := consume_until_checksum_inv buf len _ (parse_float_inv buf len s10 i10)
  split at h
  · next hcheck =>
    simp only [Option.some.injEq, Prod.mk.injEq] at h
    rw [← h.2]
    exact ⟨i11, hcheck⟩
  · cases h

/-- As `gga_inv`, for the GLL parser. -/
theorem gll_inv {buf : List Nat} {len : Nat} {s0 : Pst} {out : GllOut} {s' : Pst}
    (h : gpsutil_parse_sentence_gll buf len s0 = some (out, s'))
    (h0 : Inv buf s0) :
    Inv buf s' ∧ check_checksum buf len s'.cs s'.cur = true := by
  unfold gpsutil_parse_sentence_gll at h
  obtain ⟨s1, hs1, h⟩ := Option.bind_eq_some.mp h
  obtain ⟨lat, _, h⟩ := Option.bind_eq_some.mp h
  obtain ⟨s2, hs2, h⟩ := Option.bind_eq_some.mp h
  obtain ⟨s3, hs3, h⟩ := Option.bind_eq_some.mp h
  obtain ⟨lon, _, h⟩ := Option.bind_eq_some.mp h
  obtain ⟨s4, hs4, h⟩ := Option.bind_eq_some.mp h
  obtain ⟨s5, hs5, h⟩ := Option.bind_eq_some.mp h
  obtain ⟨v, _, h⟩ := Option.bind_eq_some.mp h
  dsimp only at h
  have i1 := commaOrFail_inv hs1 (parse_dm_inv buf len s0 h0)
  have i2 := commaOrFail_inv hs2 (parse_single_char_inv buf len s1 i1)
  have i3 := commaOrFail_inv hs3 (parse_dm_inv buf len s2 i2)
  have i4 := commaOrFail_inv hs4 (parse_single_char_inv buf len s3 i3)
  have i5 := commaOrFail_inv hs5 (parse_hms_inv buf len s4 i4)
  have i6 := consume_until_checksum_inv buf len _ (parse_single_char_inv buf len s5 i5)
  split at h
  · next hcheck =>
    simp only [Option.some.injEq, Prod.mk.injEq] at h
    rw [← h.2]
    exact ⟨i6, hcheck⟩
  · cases h

/-- As `gga_inv`, for the RMC parser. -/
theorem rmc_inv {buf : List Nat} {len : Nat} {s0 : Pst} {out : RmcOut} {s' : Pst}
    (h : gpsutil_parse_sentence_rmc buf len s0 = some (out, s'))
    (h0 : Inv buf s0) :
    Inv buf s' ∧ check_checksum buf len s'.cs s'.cur = true := by
  unfold gpsutil_parse_sentence_rmc at h
  obtain ⟨s1, hs1, h⟩ := Option.bind_eq_some.mp h
  obtain ⟨v, _, h⟩ := Option.bind_eq_some.mp h
  obtain ⟨s2, hs2, h⟩ := Option.bind_eq_some.mp h
  obtain ⟨s3, hs3, h⟩ := Option.bind_eq_some.mp h
  obtain ⟨lat, _, h⟩ := Option.bind_eq_some.mp h
  obtain ⟨s4, hs4, h⟩ := Option.bind_eq_some.mp h
  obtain ⟨s5, hs5, h⟩ := Option.bind_eq_some.mp h
  obtain ⟨lon, _, h⟩ := Option.bind_eq_some.mp h
  dsimp only at h
  have i1 := commaOrFail_inv hs1 (parse_hms_inv buf len s0 h0)
  have i2 := commaOrFail_inv hs2 (parse_single_char_inv buf len s1 i1)
  have i3 := commaOrFail_inv hs3 (parse_dm_inv buf len s2 i2)
  have i4 := commaOrFail_inv hs4 (parse_single_char_inv buf len s3 i3)
  have i5 := commaOrFail_inv hs5 (parse_dm_inv buf len s4 i4)
  have i6 := consume_until_checksum_inv buf len _ (parse_single_char_inv buf len s5 i5)
  split at h
  · next hcheck =>
    simp only [Option.some.injEq, Prod.mk.injEq] at h
    rw [← h.2]
    exact ⟨i6, hcheck⟩
  · cases h

/-- As `gga_inv`, for the ZDA parser. -/
theorem zda_inv {buf : List Nat} {len : Nat} {s0 : Pst} {out : ZdaOut} {s' : Pst}
    (h : gpsutil_parse_sentence_zda buf len s0 = some (out, s'))
    (h0 : Inv buf s0) :
    Inv buf s' ∧ check_checksum buf len s'.cs s'.cur = true := by
  unfold gpsutil_parse_sentence_zda at h
  obtain ⟨s1, hs1, h⟩ := Option.bind_eq_some.mp h
  obtain ⟨s2, hs2, h⟩ := Option.bind_eq_some.mp h
  obtain ⟨s3, hs3, h⟩ := Option.bind_eq_some.mp h
  obtain ⟨s4, hs4, h⟩ := Option.bind_eq_some.mp h
  obtain ⟨s5, hs5, h⟩ := Option.bind_eq_some.mp h
  dsimp only at h
  have i1 := commaOrFail_inv hs1 (parse_hms_inv buf len s0 h0)
  have i2 := commaOrFail_inv hs2 (parse_integer_inv buf len s1 i1)
  have i3 := commaOrFail_inv hs3 (parse_integer_inv buf len s2 i2)
  have i4 := commaOrFail_inv hs4 (parse_integer_inv buf len s3 i3)
  have i5 := commaOrFail_inv hs5 (parse_integer_inv buf len s4 i4)
  have i6 := parse_integer_inv buf len s5 i5
  split at h
  · next hcheck =>
    simp only [Option.some.injEq, Prod.mk.injEq] at h
    rw [← h.2]
    exact ⟨i6, hcheck⟩
  · cases h

/-- The five-byte talker/type prefix checksum in `parse_sentence` is
`xorPrefix buf 5`. -/
theorem xorPrefix_five (buf : List Nat) :
    xorPrefix buf 5 =
      ((((0 ^^^ readB buf 0) ^^^ readB buf 1) ^^^ readB buf 2) ^^^ readB buf 3)
        ^^^ readB buf 4 := by
  rw [show (5:Nat) = 4 + 1 from rfl, xorPrefix_succ,
    show (4:Nat) = 3 + 1 from rfl, xorPrefix_succ,
    show (3:Nat) = 2 + 1 from rfl, xorPrefix_succ,
    show (2:Nat) = 1 + 1 from rfl, xorPrefix_succ,
    show (1:Nat) = 0 + 1 from rfl, xorPrefix_succ, xorPrefix_zero]

/-- The parser's committed output fields (position group, time group,
satellite count and the two validity flags): the status register with
the internal scratch fields (`buffer`, `in_sentence`) blanked out, so
that two registers agree on `outputs` exactly when every output field
agrees. -/
def outputs (g : GpsStatus) : GpsStatus :=
  { g with buffer := [], inSentence := false }

/-- Any change of the output register by `parse_sentence` exhibits a
position `k` at which the buffer carries a `*hh` trailer matching the
XOR of `buffer[0..k)`. -/
theorem parse_sentence_checksum_gate (g : GpsStatus)
    (h : outputs (parse_sentence g).2 ≠ outputs g) :
    ∃ k, check_checksum g.buffer g.buffer.length (xorPrefix g.buffer k) k = true := by
  have h5 : Inv g.buffer
      (⟨((((0 ^^^ readB g.buffer 0) ^^^ readB g.buffer 1) ^^^ readB g.buffer 2)
          ^^^ readB g.buffer 3) ^^^ readB g.buffer 4, 5⟩ : Pst) :=
    (xorPrefix_five g.buffer).symm
  unfold parse_sentence at h
  dsimp only at h
  split at h
  · exact absurd rfl h
  · split at h
    · -- GGA
      split at h
      · exact absurd rfl h
      · next s6 hs6 =>
        split at h
        · exact absurd rfl h
        · next f s' heq =>
          obtain ⟨hi, hc⟩ := gga_inv heq (commaOrFail_inv hs6 h5)
          exact ⟨s'.cur, by rw [← hi]; exact hc⟩
    · split at h
      · -- GLL
        split at h
        · exact absurd rfl h
        · next s6 hs6 =>
          split at h
          · exact absurd rfl h
          · next f s' heq =>
            obtain ⟨hi, hc⟩ := gll_inv heq (commaOrFail_inv hs6 h5)
            exact ⟨s'.cur, by rw [← hi]; exact hc⟩
      · split at h
        · -- RMC
          split at h
          · exact absurd rfl h
          · next s6 hs6 =>
            split at h
            · exact absurd rfl h
            · next f s' heq =>
              obtain ⟨hi, hc⟩ := rmc_inv heq (commaOrFail_inv hs6 h5)
              exact ⟨s'.cur, by rw [← hi]; exact hc⟩
        · split at h
          · -- ZDA
            split at h
            · exact absurd rfl h
            · next s6 hs6 =>
              split at h
              · exact absurd rfl h
              · next f s' heq =>
                obtain ⟨hi, hc⟩ := zda_inv heq (commaOrFail_inv hs6 h5)
                exact ⟨s'.cur, by rw [← hi]; exact hc⟩
          · exact absurd rfl h

/-- `check_checksum` spelt out: a `'*'` at the cursor followed by the
two uppercase hex digits of the checksum, all inside the buffer. -/
theorem check_checksum_true_iff (buf : List Nat) (len cs cur : Nat) :
    check_checksum buf len cs cur = true ↔
      (cur + 3 ≤ len ∧ readB buf cur = 42 ∧
       readB buf (cur + 1) = hexDigit (cs / 16) ∧
       readB buf (cur + 2) = hexDigit (cs % 16)) := by
  unfold check_checksum
  split
  · next hlt =>
    simp only [Bool.false_eq_true, false_iff]
    rintro ⟨h1, -, -, -⟩
    omega
  · next hge =>
    split
    · next hne =>
      simp only [Bool.false_eq_true, false_iff]
      rintro ⟨-, h2, -, -⟩
      exact hne h2
    · next heq =>
      push_neg at heq
      rw [decide_eq_true_eq]
      constructor
      · rintro ⟨h3, h4⟩
        exact ⟨by omega, heq, h3, h4⟩
      · rintro ⟨-, -, h3, h4⟩
        exact ⟨h3, h4⟩

/-- C1: for every input byte fed to the parser, the output status
register (position fields, time fields, satellite count and the two
validity flags) changes only when the buffered sentence carries, at
some position `k`, a `'*'` followed by the two uppercase hex digits of
the XOR of `buffer[0..k)` — the sentence body with talker ID and type
included and `'$'` (never stored) and the trailer excluded.  A failing
checksum or a malformed field leaves every field unchanged. -/
theorem C1_commit_requires_checksum (g : GpsStatus) (c : Nat)
    (h : outputs (gpsutil_feed g c).2 ≠ outputs g) :
    ∃ k, k + 3 ≤ g.buffer.length ∧ readB g.buffer k = 42 ∧
      readB g.buffer (k + 1) = hexDigit (xorPrefix g.buffer k / 16) ∧
      readB g.buffer (k + 2) = hexDigit (xorPrefix g.buffer k % 16) := by
  unfold gpsutil_feed at h
  split at h
  · exact absurd rfl h
  · split at h
    · exact absurd rfl h
    · split at h
      · dsimp only at h
        split at h
        · have hx : outputs (parse_sentence { g with inSentence := false }).2 ≠
              outputs { g with inSentence := false } := h
          obtain ⟨k, hk⟩ :=
            parse_sentence_checksum_gate { g with inSentence := false } hx
          exact ⟨k, (check_checksum_true_iff _ _ _ _).mp hk⟩
        · exact absurd rfl h
      · split at h
        · exact absurd rfl h
        · exact absurd rfl h

/-- The GGA sentence of the repository's own test suite, as stored by
the framing loop (no `'$'`, no CRLF). -/
def c1WitnessStatus : GpsStatus :=
  { GPS_STATUS_INIT with
    buffer := "GPGGA,161229.487,3723.2475,N,12158.3416,W,1,07,1.0,9.0,M,1.0,M,1,0000*4B".toList.map Char.toNat,
    inSentence := true }

set_option maxRecDepth 100000 in
/-- C1, witness: feeding `'\r'` to a parser holding the test GGA
sentence does change the register, and the theorem produces the
matching trailer position. -/
theorem C1_commit_requires_checksum_witness :
    outputs (gpsutil_feed c1WitnessStatus 13).2 ≠ outputs c1WitnessStatus ∧
    (∃ k, k + 3 ≤ c1WitnessStatus.buffer.length ∧
      readB c1WitnessStatus.buffer k = 42 ∧
      readB c1WitnessStatus.buffer (k + 1) =
        hexDigit (xorPrefix c1WitnessStatus.buffer k / 16) ∧
      readB c1WitnessStatus.buffer (k + 2) =
        hexDigit (xorPrefix c1WitnessStatus.buffer k % 16)) :=
  ⟨by with_unfolding_all decide,
   C1_commit_requires_checksum c1WitnessStatus 13 (by with_unfolding_all decide)⟩

/-- C7: `gpsutil_feed` returns `true` exactly when the consumed byte is
a sentence terminator that closes a non-empty framed sentence on which
`parse_sentence` succeeds — and then the resulting status register is
exactly the one `parse_sentence` committed. -/
theorem C7_feed_true_iff (g : GpsStatus) (c : Nat) :
    (gpsutil_feed g c).1 = true ↔
      ((c = 13 ∨ c = 10) ∧ g.inSentence = true ∧ 0 < g.buffer.length ∧
       (parse_sentence { g with inSentence := false }).1 = true ∧
       (gpsutil_feed g c).2 = (parse_sentence { g with inSentence := false }).2) := by
  unfold gpsutil_feed
  split
  · next hc36 =>
    simp only [Bool.false_eq_true, false_iff]
    rintro ⟨hc | hc, -⟩ <;> omega
  · next =>
    split
    · next hins =>
      simp only [Bool.false_eq_true, false_iff]
      rintro ⟨-, htrue, -⟩
      rw [hins] at htrue
      exact Bool.false_ne_true htrue
    · next hins2 =>
      split
      · next hcrlf =>
        dsimp only
        split
        · next hlen =>
          constructor
          · intro hp
            refine ⟨hcrlf, ?_, hlen, hp, rfl⟩
            cases hb : g.inSentence
            · exact absurd hb hins2
            · rfl
          · rintro ⟨-, -, -, hp, -⟩
            exact hp
        · next hlen =>
          simp only [Bool.false_eq_true, false_iff]
          rintro ⟨-, -, hl, -⟩
          exact hlen hl
      · next hcrlf =>
        split
        · simp only [Bool.false_eq_true, false_iff]
          rintro ⟨hc, -⟩
          exact hcrlf hc
        · simp only [Bool.false_eq_true, false_iff]
          rintro ⟨hc, -⟩
          exact hcrlf hc

set_option maxRecDepth 100000 in
/-- C8: feeding the literal test sentence
`$GPGGA,161229.487,3723.2475,N,12158.3416,W,1,07,1.0,9.0,M,1.0,M,1,0000*4B\r\n`
to a freshly initialized parser commits it:  `position_valid` is set,
`lat ≈ 37.387458`, `lon ≈ −121.97236`, `alt = 9.0`, `sat_count = 7`,
`16:12:29.487` UTC, and `time_valid` stays `false` (no date seen). -/
theorem C8_gga_end_to_end :
    (feedList GPS_STATUS_INIT
        ("$GPGGA,161229.487,3723.2475,N,12158.3416,W,1,07,1.0,9.0,M,1.0,M,1,0000*4B\r\n".toList.map
          Char.toNat)).gpsValid = true ∧
    (feedList GPS_STATUS_INIT
        ("$GPGGA,161229.487,3723.2475,N,12158.3416,W,1,07,1.0,9.0,M,1.0,M,1,0000*4B\r\n".toList.map
          Char.toNat)).gpsTimeValid = false ∧
    |(feedList GPS_STATUS_INIT
        ("$GPGGA,161229.487,3723.2475,N,12158.3416,W,1,07,1.0,9.0,M,1.0,M,1,0000*4B\r\n".toList.map
          Char.toNat)).gpsLat - 37387458 / 1000000| < 1 / 100000 ∧
    |(feedList GPS_STATUS_INIT
        ("$GPGGA,161229.487,3723.2475,N,12158.3416,W,1,07,1.0,9.0,M,1.0,M,1,0000*4B\r\n".toList.map
          Char.toNat)).gpsLon - (-(12197236 / 100000))| < 1 / 100000 ∧
    (feedList GPS_STATUS_INIT
        ("$GPGGA,161229.487,3723.2475,N,12158.3416,W,1,07,1.0,9.0,M,1.0,M,1,0000*4B\r\n".toList.map
          Char.toNat)).gpsAlt = 9 ∧
    (feedList GPS_STATUS_INIT
        ("$GPGGA,161229.487,3723.2475,N,12158.3416,W,1,07,1.0,9.0,M,1.0,M,1,0000*4B\r\n".toList.map
          Char.toNat)).gpsSatNum = 7 ∧
    (feedList GPS_STATUS_INIT
        ("$GPGGA,161229.487,3723.2475,N,12158.3416,W,1,07,1.0,9.0,M,1.0,M,1,0000*4B\r\n".toList.map
          Char.toNat)).utcHour = 16 ∧
    (feedList GPS_STATUS_INIT
        ("$GPGGA,161229.487,3723.2475,N,12158.3416,W,1,07,1.0,9.0,M,1.0,M,1,0000*4B\r\n".toList.map
          Char.toNat)).utcMin = 12 ∧
    |(feedList GPS_STATUS_INIT
        ("$GPGGA,161229.487,3723.2475,N,12158.3416,W,1,07,1.0,9.0,M,1.0,M,1,0000*4B\r\n".toList.map
          Char.toNat)).utcSec - 29487 / 1000| < 1 / 100000 := by
  with_unfolding_all decide

end GpsV1

/-! ## NMEA parser, second revision of `gps_util.c`
(`thekit4_pico_w.c` lines 1255–2187).

This revision carries a `uint32_t` cursor and — unlike the first — its
`parse_hms`/`parse_dm` decimal-point look-ahead
(`c = buffer[(*cursor)++]`), its `COMMA_OR_FAIL`
(`checksum ^= (c = buffer[(cursor)++])`) and `parse_float`'s sign
check read the buffer without a bounds check, so the cursor can move
past `buffer_len`.  The buffer is therefore modelled as a total byte
memory `mem : Nat → Nat` with a declared length `len` (the C array
extends past the declared sentence length). -/

namespace GpsV2

def readM (mem : Nat → Nat) (i : Nat) : Nat := mem i % 256

/-- Digit loop of `parse_integer` (second revision): here the bound is
checked before the read (`while (*cursor < buffer_len && isdigit(...))`).
The C function's `bool` result is constantly `true`. -/
def parseIntLoop2 (mem : Nat → Nat) (len : Nat) : Nat → Nat → Nat → Nat → Nat × Nat × Nat
  | 0, value, cs, cur => (value, cs, cur)
  | fuel + 1, value, cs, cur =>
    if cur < len ∧ isDigitB (readM mem cur) then
      parseIntLoop2 mem len fuel (u32 (value * 10 + (readM mem cur - 48)))
        (cs ^^^ readM mem cur) (cur + 1)
    else (value, cs, cur)

def parse_integer2 (mem : Nat → Nat) (len cs cur : Nat) : Nat × Nat × Nat :=
  parseIntLoop2 mem len (len + 1) 0 cs cur

/-- The fractional-digit loop shared by `parse_hms`/`parse_dm` of this
revision: `sec_frac`/`min_frac` are `uint16_t` and the digit counter is
`uint8_t`, so both wrap. -/
def parseFracLoop2 (mem : Nat → Nat) (len : Nat) : Nat → Nat → Nat → Nat → Nat → Nat × Nat × Nat × Nat
  | 0, frac, mag, cs, cur => (frac, mag, cs, cur)
  | fuel + 1, frac, mag, cs, cur =>
    if cur < len ∧ isDigitB (readM mem cur) then
      parseFracLoop2 mem len fuel ((frac * 10 + (readM mem cur - 48)) % 65536)
        ((mag + 1) % 256) (cs ^^^ readM mem cur) (cur + 1)
    else (frac, mag, cs, cur)

/-- `parse_hms` (second revision, lines 1434–1461): after the integer
part, `c = buffer[(*cursor)++]` reads *without a bounds check*; the
cursor is moved back only when the byte is not a decimal point.
Returns `((hour, min, sec), checksum, cursor)`. -/
def parse_hms2 (mem : Nat → Nat) (len cs cur : Nat) : (Nat × Nat × ℚ) × Nat × Nat :=
  let r1 := parse_integer2 mem len cs cur
  let secInt := r1.1 % 100
  let minute := r1.1 / 100 % 100
  let hour := r1.1 / 100 / 100 % 100
  let c := readM mem r1.2.2
  if c = 46 then
    let r2 := parseFracLoop2 mem len (len + 1) 0 0 (r1.2.1 ^^^ 46) (r1.2.2 + 1)
    ((hour, minute, (secInt : ℚ) + (r2.1 : ℚ) * (1 / 10) ^ r2.2.1),
      r2.2.2.1, r2.2.2.2)
  else
    ((hour, minute, (secInt : ℚ)), r1.2.1, r1.2.2)

/-- `parse_dm` (second revision): same unchecked look-ahead. -/
def parse_dm2 (mem : Nat → Nat) (len cs cur : Nat) : (Nat × ℚ) × Nat × Nat :=
  let r1 := parse_integer2 mem len cs cur
  let minInt := r1.1 % 100
  let deg := r1.1 / 100 % 65536
  let c := readM mem r1.2.2
  if c = 46 then
    let r2 := parseFracLoop2 mem len (len + 1) 0 0 (r1.2.1 ^^^ 46) (r1.2.2 + 1)
    ((deg, (minInt : ℚ) + (r2.1 : ℚ) * (1 / 10) ^ r2.2.1), r2.2.2.1, r2.2.2.2)
  else ((deg, (minInt : ℚ)), r1.2.1, r1.2.2)

/-- `parse_float` (second revision): the length guard
`buffer_len - *cursor >= 1` is `uint32` arithmetic, which underflows
when the cursor is already past the end — it is false only when
`cursor = buffer_len` (for the in-range values a `uint32` holds), so
the `'-'` sign check too can read and consume past the end. -/
def parse_float2 (mem : Nat → Nat) (len cs cur : Nat) : ℚ × Nat × Nat :=
  let negative : Bool := decide (cur ≠ len ∧ readM mem cur = 45)
  let cs1 := if negative then cs ^^^ 45 else cs
  let cur1 := if negative then cur + 1 else cur
  let r1 := parse_integer2 mem len cs1 cur1
  if r1.2.2 < len ∧ readM mem r1.2.2 = 46 then
    let r2 := parse_integer2 mem len (r1.2.1 ^^^ 46) (r1.2.2 + 1)
    let dlen := r2.2.2 - (r1.2.2 + 1)
    let v : ℚ := (r1.1 : ℚ) + (r2.1 : ℚ) * (1 / 10) ^ dlen
    ((if negative then -v else v), r2.2.1, r2.2.2)
  else
    ((if negative then -(r1.1 : ℚ) else (r1.1 : ℚ)), r1.2.1, r1.2.2)

/-- `parse_single_char` (second revision) — fully bounds-checked. -/
def parse_single_char2 (mem : Nat → Nat) (len cs cur : Nat) : Option Nat × Nat × Nat :=
  if len ≤ cur then (none, cs, cur)
  else
    let c := readM mem cur
    if c = 44 ∨ c = 42 then (none, cs, cur)
    else (some c, cs ^^^ c, cur + 1)

/-- `check_checksum` (second revision, lines 1559–1575); the cursor is
passed by value, so its increments stay local. -/
def check_checksum2 (mem : Nat → Nat) (len cs cur : Nat) : Bool :=
  if len < cur + 3 then false
  else if readM mem cur ≠ 42 then false
  else
    decide (readM mem (cur + 1) = hexDigit (cs / 16) ∧
            readM mem (cur + 2) = hexDigit (cs % 16))

/-- Loop of `consume_until_checksum` (second revision) — bounds-checked. -/
def consumeUntil2 (mem : Nat → Nat) (len : Nat) : Nat → Nat → Nat → Nat × Nat
  | 0, cs, cur => (cs, cur)
  | fuel + 1, cs, cur =>
    if cur < len then
      let c := readM mem cur
      if c = 42 then (cs, cur)
      else consumeUntil2 mem len fuel (cs ^^^ c) (cur + 1)
    else (cs, cur)

def consume_until_checksum2 (mem : Nat → Nat) (len cs cur : Nat) : Nat × Nat :=
  consumeUntil2 mem len (len + 1) cs cur

/-- `COMMA_OR_FAIL` (second revision, lines 1604–1609):
`checksum ^= (c = buffer[(cursor)++])` — the byte is read and consumed
*before* the comparison, with no bounds check. -/
def comma2 (mem : Nat → Nat) (cs cur : Nat) : Bool × Nat × Nat :=
  let c := readM mem cur
  (decide (c = 44), cs ^^^ c, cur + 1)

/-- `gpsutil_parse_sentence_gga` (second revision, lines 1611–1696).
The C is a single function; to keep goals tractable it is embedded as
one Lean definition per comma-separated field, each tail-calling the
next, so that inlining the stages in order yields exactly the C
control flow: `COMMA_OR_FAIL` then the field parse then the
direction/unit case analysis, with `return false` carrying the local
checksum/cursor at the failure point.  The C communicates the parsed
values through out-pointers; the embedding computes them in `let`s
and drops the ones the claim does not mention.  The stages appear
below bottom-up (last field first). -/
def gga2_geoid (mem : Nat → Nat) (len cs cur : Nat) : Bool × Nat × Nat :=
  match comma2 mem cs cur with
  | (ok, cs, cur) =>
  if ok = false then (false, cs, cur) else
  match parse_float2 mem len cs cur with
  | (_geoidSep, cs, cur) =>
  match consume_until_checksum2 mem len cs cur with
  | (cs, cur) =>
  (check_checksum2 mem len cs cur, cs, cur)

def gga2_altUnit (mem : Nat → Nat) (len cs cur : Nat) : Bool × Nat × Nat :=
  match comma2 mem cs cur with
  | (ok, cs, cur) =>
  if ok = false then (false, cs, cur) else
  match parse_single_char2 mem len cs cur with
  | (next, cs, cur) =>
  match GpsV1.unitM next with
  | none => (false, cs, cur)
  | some _ => gga2_geoid mem len cs cur

def gga2_altitude (mem : Nat → Nat) (len cs cur : Nat) : Bool × Nat × Nat :=
  match comma2 mem cs cur with
  | (ok, cs, cur) =>
  if ok = false then (false, cs, cur) else
  match parse_float2 mem len cs cur with
  | (_altitude, cs, cur) =>
  gga2_altUnit mem len cs cur

def gga2_hdop (mem : Nat → Nat) (len cs cur : Nat) : Bool × Nat × Nat :=
  match comma2 mem cs cur with
  | (ok, cs, cur) =>
  if ok = false then (false, cs, cur) else
  match parse_float2 mem len cs cur with
  | (_hdop, cs, cur) =>
  gga2_altitude mem len cs cur

def gga2_numSat (mem : Nat → Nat) (len cs cur : Nat) : Bool × Nat × Nat :=
  match comma2 mem cs cur with
  | (ok, cs, cur) =>
  if ok = false then (false, cs, cur) else
  match parse_integer2 mem len cs cur with
  | (nsat, cs, cur) =>
  let _numSatellites := nsat % 256
  gga2_hdop mem len cs cur

def gga2_quality (mem : Nat → Nat) (len cs cur : Nat) : Bool × Nat × Nat :=
  match comma2 mem cs cur with
  | (ok, cs, cur) =>
  if ok = false then (false, cs, cur) else
  match parse_integer2 mem len cs cur with
  | (fixq, cs, cur) =>
  let _fixQuality := fixq % 256
  gga2_numSat mem len cs cur

def gga2_lonDir (mem : Nat → Nat) (len : Nat) (lon : ℚ) (cs cur : Nat) :
    Bool × Nat × Nat :=
  match comma2 mem cs cur with
  | (ok, cs, cur) =>
  if ok = false then (false, cs, cur) else
  match parse_single_char2 mem len cs cur with
  | (next, cs, cur) =>
  match GpsV1.dirEW next lon with
  | none => (false, cs, cur)
  | some _lon1 => gga2_quality mem len cs cur

def gga2_lon (mem : Nat → Nat) (len cs cur : Nat) : Bool × Nat × Nat :=
  match comma2 mem cs cur with
  | (ok, cs, cur) =>
  if ok = false then (false, cs, cur) else
  match parse_dm2 mem len cs cur with
  | (dm2, cs, cur) =>
  gga2_lonDir mem len ((dm2.1 : ℚ) + dm2.2 / 60) cs cur

def gga2_latDir (mem : Nat → Nat) (len : Nat) (lat : ℚ) (cs cur : Nat) :
    Bool × Nat × Nat :=
  match comma2 mem cs cur with
  | (ok, cs, cur) =>
  if ok = false then (false, cs, cur) else
  match parse_single_char2 mem len cs cur with
  | (next, cs, cur) =>
  match GpsV1.dirNS next lat with
  | none => (false, cs, cur)
  | some _lat1 => gga2_lon mem len cs cur

def gga2_lat (mem : Nat → Nat) (len cs cur : Nat) : Bool × Nat × Nat :=
  match comma2 mem cs cur with
  | (ok, cs, cur) =>
  if ok = false then (false, cs, cur) else
  match parse_dm2 mem len cs cur with
  | (dm1, cs, cur) =>
  gga2_latDir mem len ((dm1.1 : ℚ) + dm1.2 / 60) cs cur

def gga2 (mem : Nat → Nat) (len : Nat) (cs0 cur0 : Nat) : Bool × Nat × Nat :=
  match parse_hms2 mem len cs0 cur0 with
  | (_hms, cs, cur) =>
  gga2_lat mem len cs cur

/-! ### Cursor bounds

The bounds-checked loops never move the cursor past `buffer_len`; each
unchecked read (`parse_hms`/`parse_dm` look-ahead, `COMMA_OR_FAIL`,
`parse_float`'s sign check) can move it one byte further. -/

theorem parseIntLoop2_le (mem : Nat → Nat) (len fuel : Nat) :
    ∀ (v cs cur : Nat),
      (parseIntLoop2 mem len fuel v cs cur).2.2 ≤ max cur len := by
  induction fuel with
  | zero => intro v cs cur; exact le_max_left _ _
  | succ n ih =>
    intro v cs cur
    simp only [parseIntLoop2]
    split
    · next hc =>
      refine le_trans (ih _ _ _) (max_le ?_ (le_max_right _ _))
      exact le_max_of_le_right hc.1
    · exact le_max_left _ _

theorem parse_integer2_le (mem : Nat → Nat) (len cs cur : Nat) :
    (parse_integer2 mem len cs cur).2.2 ≤ max cur len :=
  parseIntLoop2_le mem len (len + 1) 0 cs cur

theorem parseFracLoop2_le (mem : Nat → Nat) (len fuel : Nat) :
    ∀ (f g cs cur : Nat),
      (parseFracLoop2 mem len fuel f g cs cur).2.2.2 ≤ max cur len := by
  induction fuel with
  | zero => intro f g cs cur; exact le_max_left _ _
  | succ n ih =>
    intro f g cs cur
    simp only [parseFracLoop2]
    split
    · next hc =>
      refine le_trans (ih _ _ _ _) (max_le ?_ (le_max_right _ _))
      exact le_max_of_le_right hc.1
    · exact le_max_left _ _

theorem parse_hms2_le (mem : Nat → Nat) (len cs cur B : Nat)
    (h1 : len ≤ B) (h2 : cur ≤ B) :
    (parse_hms2 mem len cs cur).2.2 ≤ B + 1 := by
  have hint : (parse_integer2 mem len cs cur).2.2 ≤ B :=
    le_trans (parse_integer2_le mem len cs cur) (max_le h2 h1)
  unfold parse_hms2
  dsimp only
  split
  · dsimp only
    refine le_trans (parseFracLoop2_le mem len (len + 1) 0 0 _ _) (max_le ?_ ?_) <;> omega
  · dsimp only
    omega

theorem parse_dm2_le (mem : Nat → Nat) (len cs cur B : Nat)
    (h1 : len ≤ B) (h2 : cur ≤ B) :
    (parse_dm2 mem len cs cur).2.2 ≤ B + 1 := by
  have hint : (parse_integer2 mem len cs cur).2.2 ≤ B :=
    le_trans (parse_integer2_le mem len cs cur) (max_le h2 h1)
  unfold parse_dm2
  dsimp only
  split
  · dsimp only
    refine le_trans (parseFracLoop2_le mem len (len + 1) 0 0 _ _) (max_le ?_ ?_) <;> omega
  · dsimp only
    omega

theorem parse_float2_le (mem : Nat → Nat) (len cs cur B : Nat)
    (h1 : len ≤ B) (h2 : cur ≤ B) :
    (parse_float2 mem len cs cur).2.2 ≤ B + 1 := by
  unfold parse_float2
  dsimp only
  split
  · have hint : (parse_integer2 mem len (cs ^^^ 45) (cur + 1)).2.2 ≤ B + 1 :=
      le_trans (parse_integer2_le mem len _ _) (max_le (by omega) (by omega))
    split
    · next hc =>
      obtain ⟨hlt, -⟩ := hc
      dsimp only
      refine le_trans (parse_integer2_le mem len _ _) (max_le ?_ ?_) <;> omega
    · dsimp only
      exact hint
  · have hint : (parse_integer2 mem len cs cur).2.2 ≤ B :=
      le_trans (parse_integer2_le mem len cs cur) (max_le h2 h1)
    split
    · next hc =>
      obtain ⟨hlt, -⟩ := hc
      dsimp only
      refine le_trans (parse_integer2_le mem len _ _) (max_le ?_ ?_) <;> omega
    · dsimp only
      omega

theorem parse_single_char2_le (mem : Nat → Nat) (len cs cur B : Nat)
    (h1 : len ≤ B) (h2 : cur ≤ B) :
    (parse_single_char2 mem len cs cur).2.2 ≤ B := by
  unfold parse_single_char2
  dsimp only
  split
  · exact h2
  · split
    · exact h2
    · dsimp only
      omega

theorem consumeUntil2_le (mem : Nat → Nat) (len fuel : Nat) :
    ∀ (cs cur : Nat), (consumeUntil2 mem len fuel cs cur).2 ≤ max cur len := by
  induction fuel with
  | zero => intro cs cur; exact le_max_left _ _
  | succ n ih =>
    intro cs cur
    simp only [consumeUntil2]
    split
    · next hc =>
      split
      · exact le_max_left _ _
      · exact le_trans (ih _ _) (max_le (le_max_of_le_right hc) (le_max_right _ _))
    · exact le_max_left _ _

theorem consume_until_checksum2_le (mem : Nat → Nat) (len cs cur B : Nat)
    (h1 : len ≤ B) (h2 : cur ≤ B) :
    (consume_until_checksum2 mem len cs cur).2 ≤ B :=
  le_trans (consumeUntil2_le mem len (len + 1) cs cur) (max_le h2 h1)

/-- The byte buffer `"123456."` with a declared length of 6: the digits
lie inside the declared length and the decimal point is the byte at
index `buffer_len` — one past the end, where the C array still has
contents. -/
def c9Mem : Nat → Nat := fun i => [49, 50, 51, 52, 53, 54, 46].getD i 0

/-- C9, counterexample: `parse_hms`'s look-ahead consumes the decimal
point at index `buffer_len = 6` and returns with the cursor at 7 — the
cursor does advance past `buffer_len`, refuting the claim as stated. -/
theorem C9_cursor_counterexample :
    ¬ ((parse_hms2 c9Mem 6 0 0).2.2 ≤ 6) := by decide

theorem gga2_geoid_le (mem : Nat → Nat) (len cs cur B : Nat)
    (h1 : len ≤ B) (h2 : cur ≤ B) :
    (gga2_geoid mem len cs cur).2.2 ≤ B + 2 := by
  unfold gga2_geoid
  rcases hc : comma2 mem cs cur with ⟨o, cs1, cur1⟩
  have e1 : cur1 = cur + 1 := by
    have h0 : (comma2 mem cs cur).2.2 = cur + 1 := rfl
    rw [hc] at h0
    exact h0
  dsimp only
  split
  next => dsimp only; omega
  rcases hp : parse_float2 mem len cs1 cur1 with ⟨v, cs2, cur2⟩
  have e2 : cur2 ≤ B + 2 := by
    have h0 := parse_float2_le mem len cs1 cur1 (B + 1) (by omega) (by omega)
    rw [hp] at h0
    dsimp only at h0
    omega
  dsimp only
  rcases hk : consume_until_checksum2 mem len cs2 cur2 with ⟨cs3, cur3⟩
  have e3 : cur3 ≤ B + 2 := by
    have h0 := consume_until_checksum2_le mem len cs2 cur2 (B + 2) (by omega) e2
    rw [hk] at h0
    exact h0
  dsimp only
  omega

theorem gga2_altUnit_le (mem : Nat → Nat) (len cs cur B : Nat)
    (h1 : len ≤ B) (h2 : cur ≤ B) :
    (gga2_altUnit mem len cs cur).2.2 ≤ B + 3 := by
  unfold gga2_altUnit
  rcases hc : comma2 mem cs cur with ⟨o, cs1, cur1⟩
  have e1 : cur1 = cur + 1 := by
    have h0 : (comma2 mem cs cur).2.2 = cur + 1 := rfl
    rw [hc] at h0
    exact h0
  dsimp only
  split
  next => dsimp only; omega
  rcases hp : parse_single_char2 mem len cs1 cur1 with ⟨v, cs2, cur2⟩
  have e2 : cur2 ≤ B + 1 := by
    have h0 := parse_single_char2_le mem len cs1 cur1 (B + 1) (by omega) (by omega)
    rw [hp] at h0
    dsimp only at h0
    omega
  dsimp only
  split
  next => dsimp only; omega
  have h9 := gga2_geoid_le mem len cs2 cur2 (B + 1) (by omega) e2
  omega

theorem gga2_altitude_le (mem : Nat → Nat) (len cs cur B : Nat)
    (h1 : len ≤ B) (h2 : cur ≤ B) :
    (gga2_altitude mem len cs cur).2.2 ≤ B + 5 := by
  unfold gga2_altitude
  rcases hc : comma2 mem cs cur with ⟨o, cs1, cur1⟩
  have e1 : cur1 = cur + 1 := by
    have h0 : (comma2 mem cs cur).2.2 = cur + 1 := rfl
    rw [hc] at h0
    exact h0
  dsimp only
  split
  next => dsimp only; omega
  rcases hp : parse_float2 mem len cs1 cur1 with ⟨v, cs2, cur2⟩
  have e2 : cur2 ≤ B + 2 := by
    have h0 := parse_float2_le mem len cs1 cur1 (B + 1) (by omega) (by omega)
    rw [hp] at h0
    dsimp only at h0
    omega
  dsimp only
  have h9 := gga2_altUnit_le mem len cs2 cur2 (B + 2) (by omega) e2
  omega

theorem gga2_hdop_le (mem : Nat → Nat) (len cs cur B : Nat)
    (h1 : len ≤ B) (h2 : cur ≤ B) :
    (gga2_hdop mem len cs cur).2.2 ≤ B + 7 := by
  unfold gga2_hdop
  rcases hc : comma2 mem cs cur with ⟨o, cs1, cur1⟩
  have e1 : cur1 = cur + 1 := by
    have h0 : (comma2 mem cs cur).2.2 = cur + 1 := rfl
    rw [hc] at h0
    exact h0
  dsimp only
  split
  next => dsimp only; omega
  rcases hp : parse_float2 mem len cs1 cur1 with ⟨v, cs2, cur2⟩
  have e2 : cur2 ≤ B + 2 := by
    have h0 := parse_float2_le mem len cs1 cur1 (B + 1) (by omega) (by omega)
    rw [hp] at h0
    dsimp only at h0
    omega
  dsimp only
  have h9 := gga2_altitude_le mem len cs2 cur2 (B + 2) (by omega) e2
  omega

theorem gga2_numSat_le (mem : Nat → Nat) (len cs cur B : Nat)
    (h1 : len ≤ B) (h2 : cur ≤ B) :
    (gga2_numSat mem len cs cur).2.2 ≤ B + 8 := by
  unfold gga2_numSat
  rcases hc : comma2 mem cs cur with ⟨o, cs1, cur1⟩
  have e1 : cur1 = cur + 1 := by
    have h0 : (comma2 mem cs cur).2.2 = cur + 1 := rfl
    rw [hc] at h0
    exact h0
  dsimp only
  split
  next => dsimp only; omega
  rcases hp : parse_integer2 mem len cs1 cur1 with ⟨v, cs2, cur2⟩
  have e2 : cur2 ≤ B + 1 := by
    have h0 := parse_integer2_le mem len cs1 cur1
    have h8 : max cur1 len ≤ B + 1 := max_le (by omega) (by omega)
    rw [hp] at h0
    dsimp only at h0
    omega
  dsimp only
  have h9 := gga2_hdop_le mem len cs2 cur2 (B + 1) (by omega) e2
  omega

theorem gga2_quality_le (mem : Nat → Nat) (len cs cur B : Nat)
    (h1 : len ≤ B) (h2 : cur ≤ B) :
    (gga2_quality mem len cs cur).2.2 ≤ B + 9 := by
  unfold gga2_quality
  rcases hc : comma2 mem cs cur with ⟨o, cs1, cur1⟩
  have e1 : cur1 = cur + 1 := by
    have h0 : (comma2 mem cs cur).2.2 = cur + 1 := rfl
    rw [hc] at h0
    exact h0
  dsimp only
  split
  next => dsimp only; omega
  rcases hp : parse_integer2 mem len cs1 cur1 with ⟨v, cs2, cur2⟩
  have e2 : cur2 ≤ B + 1 := by
    have h0 := parse_integer2_le mem len cs1 cur1
    have h8 : max cur1 len ≤ B + 1 := max_le (by omega) (by omega)
    rw [hp] at h0
    dsimp only at h0
    omega
  dsimp only
  have h9 := gga2_numSat_le mem len cs2 cur2 (B + 1) (by omega) e2
  omega

theorem gga2_lonDir_le (mem : Nat → Nat) (len : Nat) (lon : ℚ) (cs cur B : Nat)
    (h1 : len ≤ B) (h2 : cur ≤ B) :
    (gga2_lonDir mem len lon cs cur).2.2 ≤ B + 10 := by
  unfold gga2_lonDir
  rcases hc : comma2 mem cs cur with ⟨o, cs1, cur1⟩
  have e1 : cur1 = cur + 1 := by
    have h0 : (comma2 mem cs cur).2.2 = cur + 1 := rfl
    rw [hc] at h0
    exact h0
  dsimp only
  split
  next => dsimp only; omega
  rcases hp : parse_single_char2 mem len cs1 cur1 with ⟨v, cs2, cur2⟩
  have e2 : cur2 ≤ B + 1 := by
    have h0 := parse_single_char2_le mem len cs1 cur1 (B + 1) (by omega) (by omega)
    rw [hp] at h0
    dsimp only at h0
    omega
  dsimp only
  split
  next => dsimp only; omega
  have h9 := gga2_quality_le mem len cs2 cur2 (B + 1) (by omega) e2
  omega

theorem gga2_lon_le (mem : Nat → Nat) (len cs cur B : Nat)
    (h1 : len ≤ B) (h2 : cur ≤ B) :
    (gga2_lon mem len cs cur).2.2 ≤ B + 12 := by
  unfold gga2_lon
  rcases hc : comma2 mem cs cur with ⟨o, cs1, cur1⟩
  have e1 : cur1 = cur + 1 := by
    have h0 : (comma2 mem cs cur).2.2 = cur + 1 := rfl
    rw [hc] at h0
    exact h0
  dsimp only
  split
  next => dsimp only; omega
  rcases hp : parse_dm2 mem len cs1 cur1 with ⟨v, cs2, cur2⟩
  have e2 : cur2 ≤ B + 2 := by
    have h0 := parse_dm2_le mem len cs1 cur1 (B + 1) (by omega) (by omega)
    rw [hp] at h0
    dsimp only at h0
    omega
  dsimp only
  have h9 := gga2_lonDir_le mem len ((v.1 : ℚ) + v.2 / 60) cs2 cur2 (B + 2) (by omega) e2
  omega

theorem gga2_latDir_le (mem : Nat → Nat) (len : Nat) (lat : ℚ) (cs cur B : Nat)
    (h1 : len ≤ B) (h2 : cur ≤ B) :
    (gga2_latDir mem len lat cs cur).2.2 ≤ B + 13 := by
  unfold gga2_latDir
  rcases hc : comma2 mem cs cur with ⟨o, cs1, cur1⟩
  have e1 : cur1 = cur + 1 := by
    have h0 : (comma2 mem cs cur).2.2 = cur + 1 := rfl
    rw [hc] at h0
    exact h0
  dsimp only
  split
  next => dsimp only; omega
  rcases hp : parse_single_char2 mem len cs1 cur1 with ⟨v, cs2, cur2⟩
  have e2 : cur2 ≤ B + 1 := by
    have h0 := parse_single_char2_le mem len cs1 cur1 (B + 1) (by omega) (by omega)
    rw [hp] at h0
    dsimp only at h0
    omega
  dsimp only
  split
  next => dsimp only; omega
  have h9 := gga2_lon_le mem len cs2 cur2 (B + 1) (by omega) e2
  omega

theorem gga2_lat_le (mem : Nat → Nat) (len cs cur B : Nat)
    (h1 : len ≤ B) (h2 : cur ≤ B) :
    (gga2_lat mem len cs cur).2.2 ≤ B + 15 := by
  unfold gga2_lat
  rcases hc : comma2 mem cs cur with ⟨o, cs1, cur1⟩
  have e1 : cur1 = cur + 1 := by
    have h0 : (comma2 mem cs cur).2.2 = cur + 1 := rfl
    rw [hc] at h0
    exact h0
  dsimp only
  split
  next => dsimp only; omega
  rcases hp : parse_dm2 mem len cs1 cur1 with ⟨v, cs2, cur2⟩
  have e2 : cur2 ≤ B + 2 := by
    have h0 := parse_dm2_le mem len cs1 cur1 (B + 1) (by omega) (by omega)
    rw [hp] at h0
    dsimp only at h0
    omega
  dsimp only
  have h9 := gga2_latDir_le mem len ((v.1 : ℚ) + v.2 / 60) cs2 cur2 (B + 2) (by omega) e2
  omega

/-- C9, amended: the threaded cursor can pass `buffer_len`, but only by
consuming bytes at or beyond the declared length at the finitely many
unchecked reads; for a GGA parse started within bounds the cursor —
including the value it holds at any early `return false` — never
exceeds `buffer_len + 16` (one byte for each unchecked read on the
longest path). -/
theorem C9_cursor_bound_amended (mem : Nat → Nat) (len cs0 cur0 : Nat)
    (h : cur0 ≤ len) :
    (gga2 mem len cs0 cur0).2.2 ≤ len + 16 := by
  unfold gga2
  rcases h1 : parse_hms2 mem len cs0 cur0 with ⟨v1, c1, u1⟩
  have b1 : u1 ≤ len + 1 := by
    have h0 := parse_hms2_le mem len cs0 cur0 len le_rfl h
    rw [h1] at h0
    exact h0
  dsimp only
  have h9 := gga2_lat_le mem len c1 u1 (len + 1) (by omega) b1
  omega

/-- C9, witness: the amended bound applied to the repository's own GGA
test sentence (declared length 72, parse started at cursor 6). -/
theorem C9_cursor_bound_witness :
    (gga2 (fun i => (("GPGGA,161229.487,3723.2475,N,12158.3416,W,1,07,1.0,9.0,M,1.0,M,1,0000*4B".toList.map
        Char.toNat).getD i 0)) 72 0 6).2.2 ≤ 72 + 16 :=
  C9_cursor_bound_amended _ 72 0 6 (by norm_num)

end GpsV2

/-- The decoded 48-byte NTP message (`struct ntp_message`, `ntp.h`),
field values as held in the C struct. -/
structure NtpMsg where
  flags : Nat
  stratum : Nat
  poll : Nat
  precision : Nat
  rootDelay : Nat
  rootDispersion : Nat
  refId : Nat
  refTsSec : Nat
  refTsFrac : Nat
  origTsSec : Nat
  origTsFrac : Nat
  rxTsSec : Nat
  rxTsFrac : Nat
  txTsSec : Nat
  txTsFrac : Nat
deriving DecidableEq

/-- Seconds between 1900-01-01 and 1970-01-01 (`NTP_DELTA`). -/
def NTP_DELTA : Nat := 2208988800

/-- `uint32_t` subtraction `a - b` (wraps modulo `2^32`). -/
def u32sub (a b : Nat) : Nat := u32 (u32 a + 4294967296 - u32 b)

/-! ## RTC-based NTP discipline engine
(`ntp_client.c`, 2022–2024 revision, together with the PPS path
`gps_update_rtc` of `irq.c` — `src/unnamed/part_003`).

The engine's state consists of the static variables `ntp_stratum`,
`ntp_ref`, `sync_expiry`, `ntp_us_offset`, and the Pico RTC.  Model:
* the RTC as the UNIX timestamp of the calendar value it holds
  (`unix_to_datetime` / `datetime_to_unix`, declared but not defined
  under `src/`, are the standard inverse calendar conversions, so the
  RTC is modelled by the stored timestamp itself);
* `ntp_us_offset` by the value `phase` that `ntp_get_utc_us()` returns
  at this instant (the microsecond part of the current UTC second);
* `rtc_set_datetime` / `rtc_get_datetime` success as booleans supplied
  by the environment;
* `everSynced` is a history (ghost) flag recording whether a
  successful discipline update (an RTC set, or a slew via
  `ntp_apply_us_offset`) has ever completed; it is written only
  together with such an update and read by no code path. -/

namespace Ntp

/-- Modelled from the spec: `NTP_EPSILON2` is used by
`ntp_process_response` but its definition is not under `src/`; spec
§4.4 fixes the threshold at `|soffset2| > 2`. -/
def NTP_EPSILON2 : Int := 2

/-- Modelled from the spec: `NTP_INTERVAL_MS`, used by
`make_timeout_time_ms` in `ntp_update_rtc`, is not defined under
`src/`; spec §6 gives `poll_interval` = 120 s. -/
def NTP_INTERVAL_MS : Nat := 120000

def NTP_PORT : Nat := 123

def NTP_VERSION : Nat := 4

structure EngineState where
  /-- `ntp_stratum` (`uint8`); 16 = unsynchronized. -/
  stratum : Nat
  /-- `ntp_ref` (`uint32`). -/
  ref : Nat
  /-- The RTC's calendar value as a UNIX timestamp. -/
  rtc : Int
  /-- `ntp_get_utc_us()`: microsecond part of the current UTC second. -/
  phase : Nat
  /-- `sync_expiry`, an absolute monotonic microsecond deadline. -/
  syncExpiry : Int
  /-- Ghost history flag: some successful update has occurred. -/
  everSynced : Bool
deriving DecidableEq

/-- Boot state: `ntp_stratum = 16`, `ntp_ref = 0`, nothing synced. -/
def initState : EngineState :=
  { stratum := 16, ref := 0, rtc := 0, phase := 0, syncExpiry := 0,
    everSynced := false }

/-- `ntp_update_rtc` (`ntp_client.c:69`): set the RTC; on success adopt
`stratum + 1` (a `uint8` sum) and the reference id, and renew
`sync_expiry`. -/
def ntp_update_rtc (s : EngineState) (rtcOk : Bool) (now : Int)
    (result : Int) (stratum ref : Nat) : EngineState :=
  if rtcOk then
    { s with rtc := result, stratum := (stratum + 1) % 256, ref := u32 ref,
             syncExpiry := now + (NTP_INTERVAL_MS : Int) * 1000,
             everSynced := true }
  else s

/-- `ntp_set_utc_us` (`ntp_client.c:81`): declare `value` to be the
current microsecond part. -/
def ntp_set_utc_us (s : EngineState) (value : Nat) : EngineState :=
  { s with phase := value }

/-- `ntp_apply_us_offset` (`ntp_client.c:90`).  `new_us` is computed in
`uint64_t` arithmetic (a negative `offset` wraps modulo `2^64`), so the
`new_us < 0` branch of the C is dead and is omitted; `rtcOk` is the
success of the `rtc_get_datetime`/`rtc_set_datetime` pair used for the
one-second carry. -/
def ntp_apply_us_offset (s : EngineState) (rtcOk : Bool) (offset : Int) :
    EngineState :=
  let new_us : Nat := (((s.phase : Int) + offset) % (2 ^ 64 : Int)).toNat
  if 1000000 ≤ new_us then
    let s1 := { s with phase := new_us - 1000000, everSynced := true }
    if rtcOk then { s1 with rtc := s1.rtc + 1 } else s1
  else { s with phase := new_us, everSynced := true }

/-- `gps_update_rtc` — the PPS edge handler (`irq.c`,
`src/unnamed/part_003` lines 29–46): reject when the parser has no
valid time (`timeOk = false`) or the most recent time commit is older
than 1 000 000 µs; otherwise mark the top of the second and set the
RTC with stratum `0 + 1` and reference `"GPS\0" = 0x47505300`. -/
def gps_update_rtc (s : EngineState) (timeOk : Bool) (t : Int) (age : Nat)
    (rtcOk : Bool) (now : Int) : EngineState :=
  if timeOk = false then s
  else if 1000000 < age then s
  else ntp_update_rtc (ntp_set_utc_us s 0) rtcOk now t 0 0x47505300

/-- `soffset2 = (t2s − t1s) + (t3s − t4s)`, computed exactly as the C
does: `uint32` differences, a `uint32` sum, then a widening to
`int64` — hence always non-negative. -/
def soffset2Of (m : NtpMsg) : Int :=
  (u32 (u32sub m.rxTsSec m.origTsSec + u32sub m.txTsSec m.refTsSec) : Nat)

/-- `foffset2 = (t2f − t1f) + (t3f − t4f)`, same `uint32` arithmetic. -/
def foffset2Of (m : NtpMsg) : Int :=
  (u32 (u32sub m.rxTsFrac m.origTsFrac + u32sub m.txTsFrac m.refTsFrac) : Nat)

/-- `ntp_process_response` (`ntp_client.c:157`).  Also returns the
microsecond argument passed to `ntp_apply_us_offset` (`none` on the
initial-sync branch).  `(foffset2 * 15625) >> 27` is an arithmetic
shift of a non-negative `int64`, i.e. division by `2^27`; its
assignment to `int32_t` cannot truncate since the value lies in
`[0, 500000]`.  `t3s - NTP_DELTA` and `t3f * 15625` are `uint32`
arithmetic and wrap. -/
def ntp_process_response (s : EngineState) (rtcOk : Bool) (now : Int)
    (incoming : NtpMsg) (stratum ref : Nat) : EngineState × Option Int :=
  let soffset2 := soffset2Of incoming
  if soffset2 > NTP_EPSILON2 ∨ soffset2 < -NTP_EPSILON2 then
    let s1 := ntp_update_rtc s rtcOk now
      ((u32sub incoming.txTsSec NTP_DELTA : Nat) : Int) stratum ref
    (ntp_set_utc_us s1 (u32 (incoming.txTsFrac * 15625) >>> 27), none)
  else
    let foffset2 := foffset2Of incoming
    let base : Int := foffset2 * 15625 / 2 ^ 27
    let foffset_us : Int :=
      if soffset2 % 2 = 1 then
        (if soffset2 > 0 then base + 500000 else base - 500000)
      else base
    (ntp_apply_us_offset s rtcOk foffset_us, some foffset_us)

/-- The environment of one `ntp_recv_cb` invocation: outcome of the
source address/port comparison, of `ntp_fill_pbuf` (datagram length),
of the RTC reads/writes, the monotonic time, the reference id derived
from the server address (`lwip_htonl(ntp_make_ref(addr))`), and the
decoded datagram. -/
structure RespEvent where
  addrOk : Bool
  port : Nat
  copyOk : Bool
  rtcReadOk : Bool
  rtcOk : Bool
  now : Int
  refAddr : Nat
  msg : NtpMsg
deriving DecidableEq

/-- `ntp_fill_rx_as_ref` (`ntp_client.c:128`): overwrite `ref_ts` with
the local receive time (`t4`); on an RTC read failure the field keeps
the value the server sent. -/
def ntp_fill_rx_as_ref (s : EngineState) (m : NtpMsg) (rtcReadOk : Bool) :
    NtpMsg :=
  if rtcReadOk then
    { m with refTsSec := ((s.rtc + (NTP_DELTA : Int)) % (2 ^ 32 : Int)).toNat,
             refTsFrac := u32 ((s.phase <<< 26) / 15625) }
  else m

/-- `ntp_recv_cb` (`ntp_client.c:192`): sanity-check the source, decode,
fill `t4`, extract mode/version from `flags`, and reject when
`stratum == 0`, `mode != 4`, or `version != NTP_VERSION` (`= 4`). -/
def ntp_recv_cb (s : EngineState) (e : RespEvent) : EngineState :=
  if ¬(e.addrOk = true ∧ e.port = NTP_PORT) then s
  else if e.copyOk = false then s
  else
    let incoming := ntp_fill_rx_as_ref s e.msg e.rtcReadOk
    let mode := incoming.flags % 8
    let version := incoming.flags / 8 % 8
    if incoming.stratum = 0 ∨ mode ≠ 4 ∨ version ≠ NTP_VERSION then s
    else
      (ntp_process_response s e.rtcOk e.now incoming incoming.stratum
        (u32 e.refAddr)).1

/-- The two event sources that may touch the discipline state. -/
inductive Event where
  | pps (timeOk : Bool) (t : Int) (age : Nat) (rtcOk : Bool) (now : Int)
  | resp (e : RespEvent)
deriving DecidableEq

def step (s : EngineState) : Event → EngineState
  | .pps timeOk t age rtcOk now => gps_update_rtc s timeOk t age rtcOk now
  | .resp e => ntp_recv_cb s e

/-- A reachable state: the fold of a boot-to-now event trace. -/
def run (tr : List Event) : EngineState := tr.foldl step initState

/-- C2: on a PPS edge, an invalid parser time or a fix older than
1 000 000 µs leaves the discipline state completely unchanged;
otherwise (when the RTC write succeeds, `rtc_set_datetime` being the
collaborator that commits the time) the engine adopts the GPS time,
and afterwards the stratum is 1 and the reference identifier is
`0x47505300` (`"GPS\0"`). -/
theorem C2_pps_update_rule (s : EngineState) (timeOk : Bool) (t : Int)
    (age : Nat) (rtcOk : Bool) (now : Int) :
    ((timeOk = false ∨ 1000000 < age) →
      gps_update_rtc s timeOk t age rtcOk now = s) ∧
    (timeOk = true → age ≤ 1000000 → rtcOk = true →
      (gps_update_rtc s timeOk t age rtcOk now).stratum = 1 ∧
      (gps_update_rtc s timeOk t age rtcOk now).ref = 0x47505300 ∧
      (gps_update_rtc s timeOk t age rtcOk now).rtc = t ∧
      (gps_update_rtc s timeOk t age rtcOk now).phase = 0) := by
  constructor
  · rintro (h | h)
    · unfold gps_update_rtc
      rw [if_pos h]
    · unfold gps_update_rtc
      repeat' split
      all_goals first | rfl | exact absurd h (by assumption)
  · intro h1 h2 h3
    unfold gps_update_rtc ntp_update_rtc ntp_set_utc_us
    rw [if_neg (by rw [h1]; exact fun hf => Bool.noConfusion hf),
      if_neg (by omega), if_pos h3]
    exact ⟨rfl, rfl, rfl, rfl⟩

/-- C2, witness: a stale fix (age 2 000 000 µs) leaves the boot state
unchanged; a fresh fix (age 300 000 µs) with a working RTC yields
stratum 1. -/
theorem C2_pps_update_rule_witness :
    gps_update_rtc initState false 5 0 true 0 = initState ∧
    (gps_update_rtc initState true 5 2000000 true 0) = initState ∧
    (gps_update_rtc initState true 5 300000 true 0).stratum = 1 ∧
    (gps_update_rtc initState true 5 300000 true 0).ref = 0x47505300 :=
  ⟨(C2_pps_update_rule initState false 5 0 true 0).1 (Or.inl rfl),
   (C2_pps_update_rule initState true 5 2000000 true 0).1 (Or.inr (by norm_num)),
   ((C2_pps_update_rule initState true 5 300000 true 0).2 rfl (by norm_num) rfl).1,
   ((C2_pps_update_rule initState true 5 300000 true 0).2 rfl (by norm_num) rfl).2.1⟩

/-- A well-formed stratum-2 SNTP server response carrying protocol
version 3 (`flags = 0x1C`: LI 0, VN 3, mode 4). -/
def v3Msg : NtpMsg :=
  { flags := 0x1C, stratum := 2, poll := 0, precision := 0, rootDelay := 0,
    rootDispersion := 0, refId := 0, refTsSec := 0, refTsFrac := 0,
    origTsSec := 0, origTsFrac := 0, rxTsSec := 0, rxTsFrac := 0,
    txTsSec := 0, txTsFrac := 0 }

/-- The same datagram arriving from the right address and port. -/
def v3Event : RespEvent :=
  { addrOk := true, port := 123, copyOk := true, rtcReadOk := false,
    rtcOk := true, now := 0, refAddr := 0, msg := v3Msg }

/-- C3: `ntp_recv_cb` checks `version != NTP_VERSION` with
`NTP_VERSION = 4`, so an otherwise-valid version-3 server response is
*rejected* (no state change), while the identical datagram with
version 4 is accepted and updates the engine — contradicting the spec
and `ntp.h`'s own `NTP_VERSION_OK = 3` ("Minimum server version we can
accept"). -/
theorem C3_version3_rejected_by_code :
    ntp_recv_cb initState v3Event = initState ∧
    ntp_recv_cb initState
      { v3Event with msg := { v3Msg with flags := 0x24 } } ≠ initState := by
  decide

/-- `ntp_apply_us_offset` never touches the stratum or the reference
identifier. -/
theorem ntp_apply_us_offset_frame (s : EngineState) (rtcOk : Bool)
    (offset : Int) :
    (ntp_apply_us_offset s rtcOk offset).stratum = s.stratum ∧
    (ntp_apply_us_offset s rtcOk offset).ref = s.ref := by
  unfold ntp_apply_us_offset
  dsimp only
  split
  · split <;> exact ⟨rfl, rfl⟩
  · exact ⟨rfl, rfl⟩

/-- C4, amended: on the slew branch (computed `soffset2 ≤ 2`; the
`int64` value is never negative because it is a widened `uint32` sum),
the correction handed to `ntp_apply_us_offset` is
`(foffset2 * 15625) >> 27` plus `500 000` µs only when `soffset2` is
odd (i.e. `soffset2 = 1`) — not `soffset2 * 500 000` — and the
response's stratum and the server-derived reference id are *not*
applied: both fields keep their previous values. -/
theorem C4_slew_correction_amended (s : EngineState) (m : NtpMsg)
    (stratum ref : Nat) (rtcOk : Bool) (now : Int)
    (h : soffset2Of m ≤ NTP_EPSILON2) :
    (ntp_process_response s rtcOk now m stratum ref).2 =
      some (foffset2Of m * 15625 / 2 ^ 27 +
        (if soffset2Of m % 2 = 1 then 500000 else 0)) ∧
    (ntp_process_response s rtcOk now m stratum ref).1.stratum = s.stratum ∧
    (ntp_process_response s rtcOk now m stratum ref).1.ref = s.ref := by
  have hge : (0 : Int) ≤ soffset2Of m := Int.ofNat_nonneg _
  unfold ntp_process_response
  rw [if_neg (by unfold NTP_EPSILON2 at h ⊢; omega)]
  dsimp only
  obtain ⟨hst, hrf⟩ := ntp_apply_us_offset_frame s rtcOk
    (if soffset2Of m % 2 = 1 then
      (if soffset2Of m > 0 then foffset2Of m * 15625 / 2 ^ 27 + 500000
       else foffset2Of m * 15625 / 2 ^ 27 - 500000)
     else foffset2Of m * 15625 / 2 ^ 27)
  refine ⟨?_, hst, hrf⟩
  congr 1
  split
  · next hodd =>
    rw [if_pos (show soffset2Of m > 0 by omega)]
  · next heven =>
    omega

/-- A response whose timestamps give computed `soffset2 = 2` (a true
one-second offset) and `foffset2 = 0`. -/
def c4Msg : NtpMsg :=
  { flags := 0x24, stratum := 3, poll := 0, precision := 0, rootDelay := 0,
    rootDispersion := 0, refId := 0, refTsSec := 0, refTsFrac := 0,
    origTsSec := 0, origTsFrac := 0, rxTsSec := 1, rxTsFrac := 0,
    txTsSec := 1, txTsFrac := 0 }

/-- C4, counterexample: at `soffset2 = 2` the claim predicts a
correction of `(foffset2·15625 >> 27) + 2·500 000 = 1 000 000` µs
applied together with the response's stratum (3 here); the code
applies `0` µs and leaves the stratum at 16. -/
theorem C4_slew_correction_counterexample :
    ¬ ((ntp_process_response initState true 0 c4Msg 3 7).2 =
         some (foffset2Of c4Msg * 15625 / 2 ^ 27 + soffset2Of c4Msg * 500000) ∧
       (ntp_process_response initState true 0 c4Msg 3 7).1.stratum = 3) := by
  decide

/-- C4, witness: the amended theorem applied to a response with
computed `soffset2 = 1` and `foffset2 = 0`: the correction is
`0 + 500 000` µs and stratum/reference are untouched. -/
theorem C4_slew_correction_witness :
    (ntp_process_response initState true 0
        { c4Msg with txTsSec := 0 } 3 7).2 = some 500000 ∧
    (ntp_process_response initState true 0
        { c4Msg with txTsSec := 0 } 3 7).1.stratum = initState.stratum := by
  obtain ⟨h1, h2, h3⟩ := C4_slew_correction_amended initState
    { c4Msg with txTsSec := 0 } 3 7 true 0 (by decide)
  exact ⟨by rw [h1]; decide, h2⟩

/-- A slew always marks the ghost flag. -/
theorem apply_everSynced (s : EngineState) (rtcOk : Bool) (offset : Int) :
    (ntp_apply_us_offset s rtcOk offset).everSynced = true := by
  unfold ntp_apply_us_offset
  dsimp only
  split
  · split <;> rfl
  · rfl

/-- `ntp_process_response` changes the stratum only together with the
ghost flag. -/
theorem process_stratum_inv (s : EngineState) (rtcOk : Bool) (now : Int)
    (m : NtpMsg) (stratum ref : Nat)
    (h : s.everSynced = false → s.stratum = 16) :
    (ntp_process_response s rtcOk now m stratum ref).1.everSynced = false →
    (ntp_process_response s rtcOk now m stratum ref).1.stratum = 16 := by
  unfold ntp_process_response ntp_update_rtc ntp_set_utc_us
  dsimp only
  split
  · split
    · intro hf
      exact absurd hf (by simp)
    · exact h
  · intro hf
    exact absurd hf (by simp [apply_everSynced])

/-- Stratum changes only through a successful update. -/
theorem step_stratum_inv (s : EngineState) (ev : Event)
    (h : s.everSynced = false → s.stratum = 16) :
    (step s ev).everSynced = false → (step s ev).stratum = 16 := by
  cases ev with
  | pps timeOk t age rtcOk now =>
    show (gps_update_rtc s timeOk t age rtcOk now).everSynced = false →
      (gps_update_rtc s timeOk t age rtcOk now).stratum = 16
    unfold gps_update_rtc ntp_update_rtc ntp_set_utc_us
    dsimp only
    repeat' split
    all_goals first
      | exact h
      | (intro hf; exact absurd hf (by simp))
  | resp e =>
    show (ntp_recv_cb s e).everSynced = false → (ntp_recv_cb s e).stratum = 16
    unfold ntp_recv_cb
    dsimp only
    split
    · exact h
    · split
      · exact h
      · split
        · exact h
        · exact process_stratum_inv s e.rtcOk e.now _ _ _ h

/-- C5, amended: at every reachable state, if no successful discipline
update (GPS PPS RTC set, SNTP initial sync, or SNTP slew) has ever
occurred then the stratum is 16.  The converse direction of the claim
is false — see the counterexample. -/
theorem C5_stratum16_amended (tr : List Event)
    (h : (run tr).everSynced = false) : (run tr).stratum = 16 := by
  have H : ∀ s : EngineState,
      (s.everSynced = false → s.stratum = 16) →
      ((tr.foldl step s).everSynced = false → (tr.foldl step s).stratum = 16) := by
    clear h
    induction tr with
    | nil => exact fun s hs => hs
    | cons e tl ih => exact fun s hs => ih (step s e) (step_stratum_inv s e hs)
  exact H initState (fun _ => rfl) h

/-- C5, witness: the amended theorem applied to the empty trace — at
boot nothing is synced and the stratum is 16. -/
theorem C5_stratum16_amended_witness : (run []).stratum = 16 :=
  C5_stratum16_amended [] rfl

/-- An accepted stratum-15 server response (version 4, mode 4) whose
transmit timestamp is far from the local clock (initial-sync branch). -/
def c5Event : RespEvent :=
  { addrOk := true, port := 123, copyOk := true, rtcReadOk := false,
    rtcOk := true, now := 0, refAddr := 5,
    msg := { flags := 0x24, stratum := 15, poll := 0, precision := 0,
             rootDelay := 0, rootDispersion := 0, refId := 0, refTsSec := 0,
             refTsFrac := 0, origTsSec := 0, origTsFrac := 0, rxTsSec := 0,
             rxTsFrac := 0, txTsSec := 10, txTsFrac := 0 } }

/-- C5, counterexample: after one successful SNTP synchronization from
a stratum-15 server the engine's stratum is `(15 + 1) % 256 = 16`
even though a successful discipline update has occurred — refuting
`stratum = 16 ⇔ never synchronized`. -/
theorem C5_stratum16_counterexample :
    (run [Event.resp c5Event]).stratum = 16 ∧
    (run [Event.resp c5Event]).everSynced = true := by
  decide

end Ntp

/-! ## Shared NTP state (`ntp_common.c`) and the SNTP server
(`ntp_server.c`). -/

namespace NtpCommon

/-- `uint64` truncation. -/
def u64 (n : Nat) : Nat := n % 18446744073709551616

/-- `lwip_htonl`: the 32-bit byte swap. -/
def lwip_htonl (n : Nat) : Nat :=
  u32 n % 256 * 16777216 + u32 n / 256 % 256 * 65536 +
    u32 n / 65536 % 256 * 256 + u32 n / 16777216

/-- The static state of `ntp_common.c`: `ntp_stratum`, `ntp_ref`,
`last_sync`, and `ntp_boot_us` (boot-to-UTC microsecond offset). -/
structure CommonState where
  stratum : Nat
  ref : Nat
  lastSync : Int
  bootUs : Nat
deriving DecidableEq

/-- `ntp_server_recv_cb` (`ntp_server.c:29`): `nowBoot1`/`nowBoot2` are
`to_us_since_boot(get_absolute_time())` at the two `ntp_get_utc_us()`
calls; `req = none` models a failed `pbuf_copy_partial`.  Returns the
(possibly absent) reply datagram together with the state, which the
handler only reads (via `ntp_get_utc_us`, `ntp_get_stratum`,
`ntp_get_ref`). -/
def ntp_server_recv_cb (s : CommonState) (nowBoot1 nowBoot2 : Nat)
    (req : Option NtpMsg) : CommonState × Option NtpMsg :=
  let now1 := u64 (s.bootUs + nowBoot1)
  let spart1 := now1 / 1000000 + NTP_DELTA
  let uspart1 := (now1 % 1000000) <<< 26 / 15625
  match req with
  | none => (s, none)
  | some received =>
    let now2 := u64 (s.bootUs + nowBoot2)
    let spart2 := now2 / 1000000 + NTP_DELTA
    let uspart2 := (now2 % 1000000) <<< 26 / 15625
    (s, some
      { flags := 0x24,              -- (NTP_VERSION << 3) | 0x4
        stratum := s.stratum,       -- ntp_get_stratum()
        poll := 0x03,
        precision := 0xfa,
        rootDelay := 0,
        rootDispersion := 0,
        refId := s.ref,             -- ntp_get_ref()
        refTsSec := 0,
        refTsFrac := 0,
        origTsSec := received.txTsSec,
        origTsFrac := received.txTsFrac,
        rxTsSec := lwip_htonl spart1,
        rxTsFrac := lwip_htonl uspart1,
        txTsSec := lwip_htonl spart2,
        txTsFrac := lwip_htonl uspart2 })

/-- C10: serving an NTP request never modifies the discipline state —
stratum, reference identifier, boot-to-UTC offset and last-sync time
are exactly what they were before the datagram arrived; the reply's
stratum and reference id are read from that state. -/
theorem C10_server_request_preserves_state (s : CommonState)
    (nowBoot1 nowBoot2 : Nat) (req : Option NtpMsg) :
    (ntp_server_recv_cb s nowBoot1 nowBoot2 req).1 = s ∧
    (ntp_server_recv_cb s nowBoot1 nowBoot2 req).2.map
        (fun r => (r.stratum, r.refId)) =
      req.map (fun _ => (s.stratum, s.ref)) := by
  cases req <;> exact ⟨rfl, rfl⟩

end NtpCommon

/-! ## Fractional-second codec (`ntp_client.c:ntp_fill_tx`, `ntp_server.c:ntp_server_recv_cb`)

The microseconds-to-NTP-fraction direction appears verbatim in the
source (`((uint64_t)us << 26) / 15625`, in `ntp_fill_tx`,
`ntp_fill_rx_as_ref` and `ntp_server_recv_cb`). -/

namespace Codec

/-- `((uint64_t)us << 26) / 15625` — microseconds to 32-bit NTP fraction. -/
def micros_to_fraction (u : Nat) : Nat := (u <<< 26) / 15625

/-- Modelled from the spec: the inverse conversion `(f * 15625) >> 26`
(spec §4.3 "The inverse is `(f * 15625) >> 26`"); no function in the
sources under `src/` computes this exact expression (the client uses
`>> 27` to halve a doubled offset). -/
def fraction_to_micros (f : Nat) : Nat := (f * 15625) >>> 26

theorem micros_roundtrip_general (u : Nat) :
    fraction_to_micros (micros_to_fraction u) =
      if u % 15625 = 0 then u else u - 1 := by
  unfold fraction_to_micros micros_to_fraction
  rw [Nat.shiftLeft_eq, Nat.shiftRight_eq_div_pow]
  have cop : Nat.Coprime 15625 (2 ^ 26) := by
    have h : Nat.Coprime (5 ^ 6) (2 ^ 26) :=
      Nat.Coprime.pow 6 26 (by norm_num [Nat.Coprime])
    exact (by norm_num : (15625 : Nat) = 5 ^ 6) ▸ h
  have hmod : u * 2 ^ 26 % 15625 + 15625 * (u * 2 ^ 26 / 15625) = u * 2 ^ 26 :=
    Nat.mod_add_div (u * 2 ^ 26) 15625
  have hdvd : u * 2 ^ 26 % 15625 = 0 ↔ u % 15625 = 0 := by
    rw [← Nat.dvd_iff_mod_eq_zero, ← Nat.dvd_iff_mod_eq_zero]
    exact ⟨fun h => cop.dvd_of_dvd_mul_right h, fun h => h.mul_right _⟩
  by_cases hz : u % 15625 = 0
  · rw [if_pos hz]
    have h0 : u * 2 ^ 26 % 15625 = 0 := hdvd.mpr hz
    rw [Nat.div_mul_cancel (Nat.dvd_of_mod_eq_zero h0),
      Nat.mul_div_cancel u (by norm_num : (0:Nat) < 2 ^ 26)]
  · rw [if_neg hz]
    have hr0 : u * 2 ^ 26 % 15625 ≠ 0 := fun h => hz (hdvd.mp h)
    have hrlt : u * 2 ^ 26 % 15625 < 15625 := Nat.mod_lt _ (by norm_num)
    have hu : 1 ≤ u := by
      rcases Nat.eq_zero_or_pos u with h | h
      · exact absurd (by simp [h]) hr0
      · exact h
    obtain ⟨t, rfl⟩ : ∃ t, u = t + 1 := ⟨u - 1, by omega⟩
    have hq : (t + 1) * 2 ^ 26 / 15625 * 15625 =
        (t + 1) * 2 ^ 26 - (t + 1) * 2 ^ 26 % 15625 := by omega
    have hN : (t + 1) * 2 ^ 26 = 2 ^ 26 * t + 2 ^ 26 := by ring
    have hsub : (t + 1) * 2 ^ 26 - (t + 1) * 2 ^ 26 % 15625 =
        2 ^ 26 * t + (2 ^ 26 - (t + 1) * 2 ^ 26 % 15625) := by omega
    rw [hq, hsub, Nat.mul_add_div (by norm_num : (0:Nat) < 2 ^ 26),
      Nat.div_eq_of_lt (by omega), Nat.add_zero, Nat.add_sub_cancel]

/-- C6, counterexample: the claimed round trip
`fraction_to_micros (micros_to_fraction u) = u` fails already at
`u = 1`: `micros_to_fraction 1 = 4294` and
`fraction_to_micros 4294 = 0 ≠ 1`. -/
theorem C6_roundtrip_counterexample :
    fraction_to_micros (micros_to_fraction 1) ≠ 1 := by decide

/-- C6, amended: for every `u ∈ [0, 1_000_000)`, converting microseconds
to a 32-bit NTP fraction as `(u << 26) / 15625` and back as
`(f * 15625) >> 26` yields exactly `u` when `15625` divides `u`, and
`u - 1` otherwise; the round trip never loses more than one
microsecond. -/
theorem C6_roundtrip_amended (u : Nat) (h : u < 1000000) :
    fraction_to_micros (micros_to_fraction u) =
      if u % 15625 = 0 then u else u - 1 :=
  micros_roundtrip_general u

/-- C6, witness: the amended theorem applied at `u = 2` (not divisible
by `15625`, round trip gives `1`) — the hypothesis is discharged by
evaluation. -/
theorem C6_roundtrip_witness :
    fraction_to_micros (micros_to_fraction 2) = if 2 % 15625 = 0 then 2 else 2 - 1 :=
  C6_roundtrip_amended 2 (by decide)

end Codec

end TheKit
